import Mathlib

/-!
PerfStopwatch: a verification development.

A shallow embedding of `src/c++/PerfStopwatch/PerfStopwatch.{h,cpp}`.

* The two static arrays `fd` and `tracked_events` form the `Registry`; each method that
  touches them takes the registry as an argument and returns the new one.
* The three vectors of an object form the structure `Instance`.
* The kernel is outside the program.  What `perf_event_open` and `read` answer is an argument
  of the method that makes the call (`sys_open`, `sys_read`), and every request a method makes
  to the kernel or to the diagnostic printer is recorded, in order, in a list of `Call`s.
* `unsigned int` is `Nat` with `% 2 ^ 32`, `uint64_t` is `Nat` with `% 2 ^ 64`, `int` is `Int`
  (no arithmetic is done on file descriptors).
-/

namespace PerfStopwatch

/-! ## Data model -/

/-- Number of counter kinds: the value of the last enumerator, `NUM_EVENTS`, of `enum Event`. -/
abbrev NUM_EVENTS : Nat := 63

/-- The counter kinds of `enum Event`, by their enumerator value.  The closing enumerator
`NUM_EVENTS` is the length of the tables and is not a kind. -/
abbrev Event : Type := Fin NUM_EVENTS

def Event.CPU_CYCLES : Event := 0
def Event.INSTRUCTIONS : Event := 1
def Event.CACHE_REFERENCES : Event := 2
def Event.CACHE_MISSES : Event := 3
def Event.BRANCH_INSTRUCTIONS : Event := 4
def Event.BRANCH_MISSES : Event := 5
def Event.BUS_CYCLES : Event := 6
def Event.STALLED_CYCLES_FRONTEND : Event := 7
def Event.STALLED_CYCLES_BACKEND : Event := 8
def Event.REF_CPU_CYCLES : Event := 9
def Event.L1D_READ_ACCESS : Event := 10
def Event.L1I_READ_ACCESS : Event := 11
def Event.LL_READ_ACCESS : Event := 12
def Event.DTLB_READ_ACCESS : Event := 13
def Event.ITLB_READ_ACCESS : Event := 14
def Event.BPU_READ_ACCESS : Event := 15
def Event.NODE_READ_ACCESS : Event := 16
def Event.L1D_READ_MISSES : Event := 17
def Event.L1I_READ_MISSES : Event := 18
def Event.LL_READ_MISSES : Event := 19
def Event.DTLB_READ_MISSES : Event := 20
def Event.ITLB_READ_MISSES : Event := 21
def Event.BPU_READ_MISSES : Event := 22
def Event.NODE_READ_MISSES : Event := 23
def Event.L1D_WRITE_ACCESS : Event := 24
def Event.L1I_WRITE_ACCESS : Event := 25
def Event.LL_WRITE_ACCESS : Event := 26
def Event.DTLB_WRITE_ACCESS : Event := 27
def Event.ITLB_WRITE_ACCESS : Event := 28
def Event.BPU_WRITE_ACCESS : Event := 29
def Event.NODE_WRITE_ACCESS : Event := 30
def Event.L1D_WRITE_MISSES : Event := 31
def Event.L1I_WRITE_MISSES : Event := 32
def Event.LL_WRITE_MISSES : Event := 33
def Event.DTLB_WRITE_MISSES : Event := 34
def Event.ITLB_WRITE_MISSES : Event := 35
def Event.BPU_WRITE_MISSES : Event := 36
def Event.NODE_WRITE_MISSES : Event := 37
def Event.L1D_PREFETCH_ACCESS : Event := 38
def Event.L1I_PREFETCH_ACCESS : Event := 39
def Event.LL_PREFETCH_ACCESS : Event := 40
def Event.DTLB_PREFETCH_ACCESS : Event := 41
def Event.ITLB_PREFETCH_ACCESS : Event := 42
def Event.BPU_PREFETCH_ACCESS : Event := 43
def Event.NODE_PREFETCH_ACCESS : Event := 44
def Event.L1D_PREFETCH_MISSES : Event := 45
def Event.L1I_PREFETCH_MISSES : Event := 46
def Event.LL_PREFETCH_MISSES : Event := 47
def Event.DTLB_PREFETCH_MISSES : Event := 48
def Event.ITLB_PREFETCH_MISSES : Event := 49
def Event.BPU_PREFETCH_MISSES : Event := 50
def Event.NODE_PREFETCH_MISSES : Event := 51
def Event.CPU_CLOCK : Event := 52
def Event.TASK_CLOCK : Event := 53
def Event.PAGE_FAULTS : Event := 54
def Event.CONTEXT_SWITCHES : Event := 55
def Event.CPU_MIGRATIONS : Event := 56
def Event.PAGE_FAULTS_MIN : Event := 57
def Event.PAGE_FAULTS_MAJ : Event := 58
def Event.ALIGNMENT_FAULTS : Event := 59
def Event.EMULATION_FAULTS : Event := 60
def Event.DUMMY : Event := 61
def Event.BPF_OUTPUT : Event := 62

/-- The static members `fd` and `tracked_events` of the class: one file descriptor and one
reference count per kind, shared by every object of the process. -/
structure Registry where
  fd : Event → Int
  tracked_events : Event → Nat

/-- The static initialisers.  `int fd[NUM_EVENTS] = {-1}` gives `-1` to element 0 only; the
elements the initialiser list does not reach are zero.  `tracked_events` is all zero. -/
def Registry.initial : Registry where
  fd := fun event => if event.val = 0 then -1 else 0
  tracked_events := fun _ => 0

/-- The non-static members of an object: `req_events`, `start_count`, `total_count`. -/
structure Instance where
  req_events : List Event
  start_count : List Nat
  total_count : List Nat
deriving DecidableEq

/-- The `ioctl` requests the program issues. -/
inductive IoctlRequest where
  | RESET
  | DISABLE
  | ENABLE
deriving DecidableEq

/-- One request of the program to its environment.  `ioctl` and `fd_access_out_of_range` carry
the index with which the program subscripted `fd`; `read` carries the position in
`req_events` and what the kernel answered (`none`: the call did not deliver 8 bytes). -/
inductive Call where
  | perf_event_open (event : Event) (result : Int)
  | ioctl (index : Nat) (fd : Int) (request : IoctlRequest)
  | close (event : Event) (fd : Int)
  | read (i : Nat) (event : Event) (fd : Int) (result : Option Nat)
  | print_error (event : Event)
  | fd_access_out_of_range (index : Nat)
deriving DecidableEq

/-- What a method leaves behind: the registry, the object(s) and the requests made. -/
structure Effect (α : Type) where
  reg : Registry
  out : α
  calls : List Call

/-- A range-based `for` whose body may change the registry and make requests. -/
def for_each {α : Type} (body : Registry → α → Registry × List Call) :
    Registry → List α → Registry × List Call
  | reg, [] => (reg, [])
  | reg, a :: rest =>
    ((for_each body (body reg a).1 rest).1, (body reg a).2 ++ (for_each body (body reg a).1 rest).2)

/-- Wrap-around of `uint64_t` subtraction. -/
def sub64 (a b : Nat) : Nat := (((a : Int) - (b : Int)) % 2 ^ 64).toNat

/-- Wrap-around of `uint64_t` addition. -/
def add64 (a b : Nat) : Nat := (a + b) % 2 ^ 64

/-! ## `perf_start` and the destructor -/

/-- Body of the loop of `perf_start` (lines 594-612) for one `event`. -/
def perf_start_body (sys_open : Event → Int) (reg : Registry) (event : Event) :
    Registry × List Call :=
  let opened : Registry × List Call :=
    if reg.tracked_events event = 0 then
      ({ reg with fd := Function.update reg.fd event (sys_open event) },
        if sys_open event = -1 then
          [Call.perf_event_open event (sys_open event), Call.print_error event]
        else
          [Call.perf_event_open event (sys_open event),
            Call.ioctl event.val (sys_open event) IoctlRequest.RESET])
    else (reg, [])
  ({ opened.1 with
      tracked_events :=
        Function.update opened.1.tracked_events event
          ((opened.1.tracked_events event + 1) % 2 ^ 32) },
    opened.2)

/-- The function `perf_start`: `sys_open event` is what `perf_event_open` answers for the kind
during this call. -/
def perf_start (sys_open : Event → Int) (reg : Registry) (req_events : List Event) :
    Registry × List Call :=
  for_each (perf_start_body sys_open) reg req_events

/-- Body of the loop of the destructor (lines 135-145) for one `event`. -/
def dtor_body (reg : Registry) (event : Event) : Registry × List Call :=
  let reg1 : Registry :=
    { reg with
      tracked_events :=
        Function.update reg.tracked_events event
          ((reg.tracked_events event + (2 ^ 32 - 1)) % 2 ^ 32) }
  if reg1.fd event ≠ -1 ∧ reg1.tracked_events event = 0 then
    ({ reg1 with fd := Function.update reg1.fd event (-1) },
      [Call.ioctl event.val (reg1.fd event) IoctlRequest.DISABLE, Call.close event (reg1.fd event)])
  else (reg1, [])

/-- The destructor `~PerfStopwatch`. -/
def dtor (reg : Registry) (self : Instance) : Effect Unit :=
  { reg := (for_each dtor_body reg self.req_events).1
    out := ()
    calls := (for_each dtor_body reg self.req_events).2 }

/-! ## The stopwatch operations -/

/-- The method `restart`: every element of `total_count` becomes 0. -/
def restart (reg : Registry) (self : Instance) : Effect Instance :=
  { reg := reg
    out := { self with total_count := self.total_count.map (fun _ => 0) }
    calls := [] }

/-- The constructor `PerfStopwatch(const std::vector<Event> &)`. -/
def ctor (sys_open : Event → Int) (reg : Registry) (req_events_ : List Event) :
    Effect Instance :=
  let self : Instance :=
    { req_events := req_events_
      start_count := List.replicate req_events_.length 0
      total_count := List.replicate req_events_.length 0 }
  let started := perf_start sys_open reg self.req_events
  let cleared := restart started.1 self
  { reg := cleared.reg, out := cleared.out, calls := started.2 ++ cleared.calls }

/-- The copy constructor. -/
def copy_ctor (sys_open : Event → Int) (reg : Registry) (other : Instance) : Effect Instance :=
  let self : Instance :=
    { req_events := other.req_events
      start_count := other.start_count
      total_count := other.total_count }
  let started := perf_start sys_open reg self.req_events
  { reg := started.1, out := self, calls := started.2 }

/-- The move constructor: the new object, then the moved-from `other` (a moved-from
`std::vector` is empty). -/
def move_ctor (reg : Registry) (other : Instance) : Effect (Instance × Instance) :=
  { reg := reg
    out := ({ req_events := other.req_events
              start_count := other.start_count
              total_count := other.total_count },
            { req_events := [], start_count := [], total_count := [] })
    calls := [] }

/-- The move assignment `*this = std::move(other)`: the three vectors are swapped.  The result
is `*this`, then `other`. -/
def move_assign (reg : Registry) (self other : Instance) : Effect (Instance × Instance) :=
  { reg := reg
    out := ({ req_events := other.req_events
              start_count := other.start_count
              total_count := other.total_count },
            { req_events := self.req_events
              start_count := self.start_count
              total_count := self.total_count })
    calls := [] }

/-- The copy assignment `*this = PerfStopwatch(other)`: a temporary is copy-constructed from
`other`, move-assigned to `*this`, and destroyed at the end of the statement. -/
def copy_assign (sys_open : Event → Int) (reg : Registry) (self other : Instance) :
    Effect Instance :=
  let tmp := copy_ctor sys_open reg other
  let swapped := move_assign tmp.reg self tmp.out
  let gone := dtor swapped.reg swapped.out.2
  { reg := gone.reg, out := swapped.out.1, calls := tmp.calls ++ swapped.calls ++ gone.calls }

/-- The loops `for (const auto &event : tracked_events)` of `play` and `pause` (lines 156-160,
176-180, 185-189, 210-214).  The loop variable takes the VALUES stored in `tracked_events`, in
array order, and subscripts `fd` with them.  A value that is no index of `fd` is recorded as
`fd_access_out_of_range` and makes no request. -/
def toggle_all (reg : Registry) (request : IoctlRequest) : List Call :=
  (List.finRange NUM_EVENTS).flatMap fun j =>
    if h : reg.tracked_events j < NUM_EVENTS then
      if reg.fd ⟨reg.tracked_events j, h⟩ ≠ -1 then
        [Call.ioctl (reg.tracked_events j) (reg.fd ⟨reg.tracked_events j, h⟩) request]
      else []
    else [Call.fd_access_out_of_range (reg.tracked_events j)]

/-- The reading loop of `play` (lines 163-173) from position `i` on: `sys_read i fd` is what
`read` answers at position `i`; on success the 8 bytes land in `start_count[i]`. -/
def play_reads (reg : Registry) (sys_read : Nat → Int → Option Nat) :
    Nat → List Event → List Nat → List Nat × List Call
  | _, [], start_count => (start_count, [])
  | i, event :: rest, start_count =>
    if reg.fd event = -1 then play_reads reg sys_read (i + 1) rest start_count
    else
      match sys_read i (reg.fd event) with
      | some v =>
        ((play_reads reg sys_read (i + 1) rest (start_count.set i v)).1,
          Call.read i event (reg.fd event) (some v) ::
            (play_reads reg sys_read (i + 1) rest (start_count.set i v)).2)
      | none =>
        ((play_reads reg sys_read (i + 1) rest start_count).1,
          Call.read i event (reg.fd event) none :: Call.print_error event ::
            (play_reads reg sys_read (i + 1) rest start_count).2)

/-- The method `play`. -/
def play (sys_read : Nat → Int → Option Nat) (reg : Registry) (self : Instance) :
    Effect Instance :=
  { reg := reg
    out := { self with
      start_count := (play_reads reg sys_read 0 self.req_events self.start_count).1 }
    calls := toggle_all reg IoctlRequest.DISABLE ++
      (play_reads reg sys_read 0 self.req_events self.start_count).2 ++
      toggle_all reg IoctlRequest.ENABLE }

/-- The reading loop of `pause` (lines 192-207) from position `i` on. -/
def pause_reads (reg : Registry) (sys_read : Nat → Int → Option Nat) (start_count : List Nat) :
    Nat → List Event → List Nat → List Nat × List Call
  | _, [], total_count => (total_count, [])
  | i, event :: rest, total_count =>
    if reg.fd event = -1 then pause_reads reg sys_read start_count (i + 1) rest total_count
    else
      match sys_read i (reg.fd event) with
      | some stop_count =>
        ((pause_reads reg sys_read start_count (i + 1) rest
            (total_count.set i
              (add64 (total_count.getD i 0) (sub64 stop_count (start_count.getD i 0))))).1,
          Call.read i event (reg.fd event) (some stop_count) ::
            (pause_reads reg sys_read start_count (i + 1) rest
              (total_count.set i
                (add64 (total_count.getD i 0) (sub64 stop_count (start_count.getD i 0))))).2)
      | none =>
        ((pause_reads reg sys_read start_count (i + 1) rest total_count).1,
          Call.read i event (reg.fd event) none :: Call.print_error event ::
            (pause_reads reg sys_read start_count (i + 1) rest total_count).2)

/-- The method `pause`. -/
def pause (sys_read : Nat → Int → Option Nat) (reg : Registry) (self : Instance) :
    Effect Instance :=
  { reg := reg
    out := { self with
      total_count :=
        (pause_reads reg sys_read self.start_count 0 self.req_events self.total_count).1 }
    calls := toggle_all reg IoctlRequest.DISABLE ++
      (pause_reads reg sys_read self.start_count 0 self.req_events self.total_count).2 ++
      toggle_all reg IoctlRequest.ENABLE }

/-- The message of the `std::runtime_error` that `get_counter` throws. -/
def non_tracked_error : String := "PerfStopwatch: Trying to read a non tracked event"

/-- The loop of `get_counter` (lines 226-234) from position `i` on.  `total_count[i]` past the
end of the vector is outside the language; here it is answered with 0.  It does not arise for
an object whose vectors have the length of `req_events`, as every constructor leaves them. -/
def get_counter_from (reg : Registry) (total_count : List Nat) (target_event : Event) :
    Nat → List Event → Except String Nat
  | _, [] => Except.error non_tracked_error
  | i, event :: rest =>
    if event = target_event ∧ reg.fd event ≠ -1 then Except.ok (total_count.getD i 0)
    else get_counter_from reg total_count target_event (i + 1) rest

/-- The method `get_counter`. -/
def get_counter (reg : Registry) (self : Instance) (target_event : Event) : Except String Nat :=
  get_counter_from reg self.total_count target_event 0 self.req_events

/-- The static table `descriptors` (lines 25-96), in the order of `enum Event`. -/
def descriptors : List String :=
  ["cpu cycles", "instructions", "cache references", "cache misses", "branch instructions",
    "branch misses", "bus cycles", "stalled cycles frontend", "stalled cycles backend",
    "ref cpu cycles",
    "L1D read access", "L1I read access", "LL read access", "DTLB read access",
    "ITLB read access", "BPU read access", "NODE read access",
    "L1D read misses", "L1I read misses", "LL read misses", "DTLB read misses",
    "ITLB read misses", "BPU read misses", "NODE read misses",
    "L1D write access", "L1I write access", "LL write access", "DTLB write access",
    "ITLB write access", "BPU write access", "NODE write access",
    "L1D write misses", "L1I write misses", "LL write misses", "DTLB write misses",
    "ITLB write misses", "BPU write misses", "NODE write misses",
    "L1D prefetch access", "L1I prefetch access", "LL prefetch access", "DTLB prefetch access",
    "ITLB prefetch access", "BPU prefetch access", "NODE prefetch access",
    "L1D prefetch misses", "L1I prefetch misses", "LL prefetch misses", "DTLB prefetch misses",
    "ITLB prefetch misses", "BPU prefetch misses", "NODE prefetch misses",
    "cpu clock", "task clock", "page faults", "context switches", "cpu migrations",
    "page faults min", "page faults maj", "alignment faults", "emulation faults", "dummy",
    "bpf output"]

/-- The method `get_descriptor`: `descriptors[target_event]`. -/
def get_descriptor (target_event : Event) : String :=
  descriptors.get ⟨target_event.val,
    Nat.lt_of_lt_of_eq target_event.isLt (rfl : NUM_EVENTS = descriptors.length)⟩

/-- One line written by the `printf` of `print_all_counters`: the text given for the `%16s`
field and the number given for the `%14lu` field.  `count` is `none` when the subscript handed
to `total_count` is not an index of the vector. -/
structure PrintedLine where
  descriptor : String
  count : Option Nat
deriving DecidableEq

/-- The loop of `print_all_counters` (lines 218-222): for an `event` whose `fd` entry is not
`-1`, one line made of `descriptors[event]` and `total_count[event]`.  The vector
`total_count` is subscripted with the kind itself, not with its position in `req_events`. -/
def print_all_counters_loop (reg : Registry) (total_count : List Nat) :
    List Event → List PrintedLine
  | [] => []
  | event :: rest =>
    if reg.fd event ≠ -1 then
      { descriptor := get_descriptor event, count := total_count[event.val]? } ::
        print_all_counters_loop reg total_count rest
    else print_all_counters_loop reg total_count rest

/-- The method `print_all_counters`: the lines written to standard output, in order. -/
def print_all_counters (reg : Registry) (self : Instance) : List PrintedLine :=
  print_all_counters_loop reg self.total_count self.req_events

/-! ## Sequences of operations on the objects of a process -/

/-- The registry together with the live objects, addressed by their position in `live`. -/
structure World where
  reg : Registry
  live : List Instance

/-- The process before any object exists. -/
def World.initial : World := { reg := Registry.initial, live := [] }

/-- One operation of the client program on its objects.  `src`, `dst` and `i` are positions of
live objects; the answers of the kernel during the operation come with it. -/
inductive Op where
  | construct (req_events : List Event) (sys_open : Event → Int)
  | copy_construct (src : Nat) (sys_open : Event → Int)
  | move_construct (src : Nat)
  | copy_assign (dst src : Nat) (sys_open : Event → Int)
  | move_assign (dst src : Nat)
  | destroy (i : Nat)
  | restart (i : Nat)
  | play (i : Nat) (sys_read : Nat → Int → Option Nat)
  | pause (i : Nat) (sys_read : Nat → Int → Option Nat)

/-- The list a `construct` is given has no duplicate kind. -/
def Op.duplicate_free : Op → Prop
  | Op.construct req_events _ => req_events.Nodup
  | _ => True

/-- Run one operation.  A new object is appended to `live`, a destroyed one is removed; an
operation that names a position holding no live object leaves the world as it is. -/
def World.step (w : World) : Op → World
  | Op.construct req_events sys_open =>
    { reg := (ctor sys_open w.reg req_events).reg
      live := w.live ++ [(ctor sys_open w.reg req_events).out] }
  | Op.copy_construct src sys_open =>
    match w.live[src]? with
    | some other =>
      { reg := (copy_ctor sys_open w.reg other).reg
        live := w.live ++ [(copy_ctor sys_open w.reg other).out] }
    | none => w
  | Op.move_construct src =>
    match w.live[src]? with
    | some other =>
      { reg := (move_ctor w.reg other).reg
        live := w.live.set src (move_ctor w.reg other).out.2 ++ [(move_ctor w.reg other).out.1] }
    | none => w
  | Op.copy_assign dst src sys_open =>
    match w.live[dst]?, w.live[src]? with
    | some self, some other =>
      { reg := (copy_assign sys_open w.reg self other).reg
        live := w.live.set dst (copy_assign sys_open w.reg self other).out }
    | _, _ => w
  | Op.move_assign dst src =>
    match w.live[dst]?, w.live[src]? with
    | some self, some other =>
      { reg := (move_assign w.reg self other).reg
        live := (w.live.set dst (move_assign w.reg self other).out.1).set src
          (move_assign w.reg self other).out.2 }
    | _, _ => w
  | Op.destroy i =>
    match w.live[i]? with
    | some self => { reg := (dtor w.reg self).reg, live := w.live.eraseIdx i }
    | none => w
  | Op.restart i =>
    match w.live[i]? with
    | some self =>
      { reg := (restart w.reg self).reg, live := w.live.set i (restart w.reg self).out }
    | none => w
  | Op.play i sys_read =>
    match w.live[i]? with
    | some self =>
      { reg := (play sys_read w.reg self).reg, live := w.live.set i (play sys_read w.reg self).out }
    | none => w
  | Op.pause i sys_read =>
    match w.live[i]? with
    | some self =>
      { reg := (pause sys_read w.reg self).reg
        live := w.live.set i (pause sys_read w.reg self).out }
    | none => w

/-- Run a sequence of operations, first to last. -/
def World.run (w : World) (ops : List Op) : World := ops.foldl World.step w

/-- Number of live objects whose `req_events` contains `k`. -/
def World.holders (w : World) (k : Event) : Nat :=
  w.live.countP (fun self => decide (k ∈ self.req_events))

/-! ## Quantities the statements speak about -/

/-- The invariant of a world: no live object lists a kind twice, and every reference count is
the number of holders of its kind, reduced to the range of `unsigned int`. -/
def World.balanced (w : World) : Prop :=
  (∀ self ∈ w.live, self.req_events.Nodup) ∧
    ∀ k, w.reg.tracked_events k = w.holders k % 2 ^ 32

/-- `play` followed by `pause` on the same object. -/
def play_then_pause (read_play read_pause : Nat → Int → Option Nat) (reg : Registry)
    (self : Instance) : Effect Instance :=
  pause read_pause (play read_play reg self).reg (play read_play reg self).out

/-- Number of `perf_event_open` calls made for the kind `k`. -/
def opens_of (k : Event) (calls : List Call) : Nat :=
  calls.countP fun c =>
    match c with
    | Call.perf_event_open event _ => decide (event = k)
    | _ => false

/-- Number of `close` calls made on the handle of the kind `k`. -/
def closes_of (k : Event) (calls : List Call) : Nat :=
  calls.countP fun c =>
    match c with
    | Call.close event _ => decide (event = k)
    | _ => false

/-- Number of `read` calls made for the kind `k`. -/
def reads_of (k : Event) (calls : List Call) : Nat :=
  calls.countP fun c =>
    match c with
    | Call.read _ event _ _ => decide (event = k)
    | _ => false

/-- The ioctl requests of kind `request` in a list of calls: the descriptors they go to. -/
def ioctl_targets (request : IoctlRequest) (calls : List Call) : List Int :=
  calls.filterMap fun c =>
    match c with
    | Call.ioctl _ fd r => if r = request then some fd else none
    | _ => none

/-! ## Concrete processes used as illustrations -/

/-- A registry used in the examples: the one left by constructing an object for `CPU_CYCLES`
and `CACHE_MISSES` in a fresh process, the kernel granting descriptor 7 for the first and
refusing the second. -/
def example_registry : Registry :=
  (ctor (fun event => if event = Event.CPU_CYCLES then 7 else -1) Registry.initial
    [Event.CPU_CYCLES, Event.CACHE_MISSES]).reg

/-- An object used in the examples, with baselines 10, 3 and totals 5, 4. -/
def example_instance : Instance :=
  { req_events := [Event.CPU_CYCLES, Event.CACHE_MISSES]
    start_count := [10, 3]
    total_count := [5, 4] }

/-- Scenario: in a fresh process an object is constructed for `CPU_CYCLES`, the kernel refuses
to open the counter, then the object is played and paused. -/
def refused_scenario : Effect Instance :=
  play_then_pause (fun _ _ => some 1) (fun _ _ => some 2)
    (ctor (fun _ => -1) Registry.initial [Event.CPU_CYCLES]).reg
    (ctor (fun _ => -1) Registry.initial [Event.CPU_CYCLES]).out

/-- Operations of a process in which the open of `CACHE_MISSES` is refused for a first object;
that object is destroyed and a second one is constructed, for which the kernel grants
descriptor 5. -/
def retry_ops : List Op :=
  [Op.construct [Event.CACHE_MISSES] (fun _ => -1), Op.destroy 0,
    Op.construct [Event.CACHE_MISSES] (fun _ => 5)]

/-- Operations of a process that constructs one object for `CACHE_MISSES`, the open being
refused. -/
def refused_ops : List Op := [Op.construct [Event.CACHE_MISSES] (fun _ => -1)]

/-- Operations that follow `refused_ops`: a copy, an assignment, a destruction. -/
def later_ops : List Op :=
  [Op.copy_construct 0 (fun _ => 5), Op.copy_assign 0 1 (fun _ => 5), Op.destroy 0]

/-- Scenario: in a fresh process one object is constructed for `CPU_CYCLES`, `INSTRUCTIONS`
and `CACHE_MISSES`; the kernel grants the descriptors 5, 6 and 8. -/
def three_kinds_scenario : Effect Instance :=
  ctor (fun event => (event.val : Int) + 5) Registry.initial
    [Event.CPU_CYCLES, Event.INSTRUCTIONS, Event.CACHE_MISSES]

/-- Operations used to illustrate C1: a construction, a copy, the destruction of the
original, a move construction, a second construction and a copy assignment. -/
def sample_ops : List Op :=
  [Op.construct [Event.CPU_CYCLES, Event.CACHE_MISSES] (fun _ => 7),
    Op.copy_construct 0 (fun _ => 7), Op.destroy 0, Op.move_construct 0,
    Op.construct [Event.CPU_CYCLES] (fun _ => 7), Op.copy_assign 0 2 (fun _ => 7)]

/-- First object of the C8 illustration, built in a fresh process; the kernel grants 7. -/
def shared_a : Effect Instance :=
  ctor (fun _ => 7) Registry.initial [Event.CPU_CYCLES, Event.INSTRUCTIONS]

/-- Second object of the C8 illustration, built after `shared_a`. -/
def shared_b : Effect Instance :=
  ctor (fun _ => 9) shared_a.reg [Event.CACHE_MISSES, Event.CPU_CYCLES]

/-- Scenario: in a fresh process an object is constructed for `INSTRUCTIONS` and `CPU_CYCLES`,
in this order, with both opens granted (descriptors 6 and 5).  `play` reads 100 and 200,
`pause` reads 110 and 230, so the object accumulates 10 for `INSTRUCTIONS` and 30 for
`CPU_CYCLES`. -/
def two_totals_scenario : Effect Instance :=
  play_then_pause (fun i _ => if i = 0 then some 100 else some 200)
    (fun i _ => if i = 0 then some 110 else some 230)
    (ctor (fun event => (event.val : Int) + 5) Registry.initial
      [Event.INSTRUCTIONS, Event.CPU_CYCLES]).reg
    (ctor (fun event => (event.val : Int) + 5) Registry.initial
      [Event.INSTRUCTIONS, Event.CPU_CYCLES]).out

/-- Operations of a process that constructs 63 objects for `CPU_CYCLES`. -/
def crowded_ops : List Op :=
  List.replicate 63 (Op.construct [Event.CPU_CYCLES] (fun _ => 5))

/-- One of the 63 objects of `crowded_ops`, as its constructor leaves it. -/
def crowded_instance : Instance :=
  { req_events := [Event.CPU_CYCLES], start_count := [0], total_count := [0] }

/-! ## Lemmas -/

theorem perf_start_body_tracked (sys_open : Event → Int) (reg : Registry) (e k : Event) :
    (perf_start_body sys_open reg e).1.tracked_events k =
      if k = e then (reg.tracked_events e + 1) % 2 ^ 32 else reg.tracked_events k := by
  unfold perf_start_body
  by_cases h0 : reg.tracked_events e = 0 <;> by_cases hk : k = e <;>
    simp [h0, hk, Function.update]

theorem perf_start_body_fd (sys_open : Event → Int) (reg : Registry) (e k : Event) :
    (perf_start_body sys_open reg e).1.fd k =
      if k = e ∧ reg.tracked_events e = 0 then sys_open e else reg.fd k := by
  unfold perf_start_body
  by_cases h0 : reg.tracked_events e = 0 <;> by_cases hk : k = e <;>
    simp [h0, hk, Function.update]

theorem perf_start_nodup (sys_open : Event → Int) (k : Event) (l : List Event) :
    ∀ reg : Registry, l.Nodup →
      (perf_start sys_open reg l).1.tracked_events k =
          (if k ∈ l then (reg.tracked_events k + 1) % 2 ^ 32 else reg.tracked_events k) ∧
        (perf_start sys_open reg l).1.fd k =
          (if k ∈ l ∧ reg.tracked_events k = 0 then sys_open k else reg.fd k) := by
  induction l with
  | nil => intro reg _; simp [perf_start, for_each]
  | cons e rest ih =>
    intro reg hnd
    have hrest := ih (perf_start_body sys_open reg e).1 (List.nodup_cons.mp hnd).2
    have hnot : e ∉ rest := (List.nodup_cons.mp hnd).1
    simp only [perf_start, for_each] at hrest ⊢
    rw [hrest.1, hrest.2, perf_start_body_tracked, perf_start_body_fd]
    by_cases hk : k = e
    · subst hk; simp [hnot]
    · have hk' : ¬ e = k := fun h => hk h.symm
      simp [hk]

theorem dtor_body_tracked (reg : Registry) (e k : Event) :
    (dtor_body reg e).1.tracked_events k =
      if k = e then (reg.tracked_events e + (2 ^ 32 - 1)) % 2 ^ 32 else reg.tracked_events k := by
  unfold dtor_body
  simp only [Function.update_same]
  by_cases hc : reg.fd e ≠ -1 ∧ (reg.tracked_events e + (2 ^ 32 - 1)) % 2 ^ 32 = 0
  · rw [if_pos hc]
    rcases eq_or_ne k e with rfl | hk
    · simp_all
    · simp [hk, Function.update_noteq hk]
  · rw [if_neg hc]
    rcases eq_or_ne k e with rfl | hk
    · simp_all
    · simp [hk, Function.update_noteq hk]

theorem dtor_body_fd (reg : Registry) (e k : Event) :
    (dtor_body reg e).1.fd k =
      if k = e ∧ reg.fd e ≠ -1 ∧ (reg.tracked_events e + (2 ^ 32 - 1)) % 2 ^ 32 = 0 then -1
      else reg.fd k := by
  unfold dtor_body
  simp only [Function.update_same]
  by_cases hc : reg.fd e ≠ -1 ∧ (reg.tracked_events e + (2 ^ 32 - 1)) % 2 ^ 32 = 0
  · rw [if_pos hc]
    rcases eq_or_ne k e with rfl | hk
    · rw [if_pos ⟨rfl, hc⟩]
      simp
    · simp [hk, Function.update_noteq hk]
  · rw [if_neg hc]
    rcases eq_or_ne k e with rfl | hk
    · rw [if_neg (fun h => hc h.2)]
    · simp [hk, Function.update_noteq hk]

theorem dtor_nodup (k : Event) (l : List Event) :
    ∀ reg : Registry, l.Nodup →
      (for_each dtor_body reg l).1.tracked_events k =
          (if k ∈ l then (reg.tracked_events k + (2 ^ 32 - 1)) % 2 ^ 32
            else reg.tracked_events k) ∧
        (for_each dtor_body reg l).1.fd k =
          (if k ∈ l ∧ reg.fd k ≠ -1 ∧ (reg.tracked_events k + (2 ^ 32 - 1)) % 2 ^ 32 = 0 then -1
            else reg.fd k) := by
  induction l with
  | nil => intro reg _; simp [for_each]
  | cons e rest ih =>
    intro reg hnd
    have hrest := ih (dtor_body reg e).1 (List.nodup_cons.mp hnd).2
    have hnot : e ∉ rest := (List.nodup_cons.mp hnd).1
    simp only [for_each] at hrest ⊢
    rw [hrest.1, hrest.2, dtor_body_tracked, dtor_body_fd]
    by_cases hk : k = e
    · subst hk; simp [hnot]
    · simp [hk]

theorem countP_set_add {α : Type} (p : α → Bool) (x : α) :
    ∀ (l : List α) (i : Nat) (a : α), l[i]? = some a →
      (l.set i x).countP p + (if p a then 1 else 0) = l.countP p + (if p x then 1 else 0) := by
  intro l
  induction l with
  | nil => intro i a h; simp at h
  | cons b rest ih =>
    intro i a h
    cases i with
    | zero =>
      simp only [List.getElem?_cons_zero, Option.some.injEq] at h
      subst h
      simp only [List.set_cons_zero, List.countP_cons]
      omega
    | succ j =>
      simp only [List.getElem?_cons_succ] at h
      have := ih j a h
      simp only [List.set_cons_succ, List.countP_cons]
      omega

theorem countP_eraseIdx_add {α : Type} (p : α → Bool) :
    ∀ (l : List α) (i : Nat) (a : α), l[i]? = some a →
      (l.eraseIdx i).countP p + (if p a then 1 else 0) = l.countP p := by
  intro l
  induction l with
  | nil => intro i a h; simp at h
  | cons b rest ih =>
    intro i a h
    cases i with
    | zero =>
      simp only [List.getElem?_cons_zero, Option.some.injEq] at h
      subst h
      simp only [List.eraseIdx_cons_zero, List.countP_cons]
    | succ j =>
      simp only [List.getElem?_cons_succ] at h
      have := ih j a h
      simp only [List.eraseIdx_cons_succ, List.countP_cons]
      omega

theorem World.initial_balanced : World.initial.balanced := by
  refine ⟨?_, ?_⟩
  · intro self h; simp [World.initial] at h
  · intro k; simp [World.initial, World.holders, Registry.initial]

theorem mem_of_getElem? {α : Type} {l : List α} {i : Nat} {a : α} (h : l[i]? = some a) :
    a ∈ l := List.mem_iff_getElem?.mpr ⟨i, h⟩

theorem World.step_balanced (w : World) (op : Op) (hw : w.balanced) (hop : op.duplicate_free) :
    (w.step op).balanced := by
  obtain ⟨hnd, hcnt⟩ := hw
  cases op with
  | construct req_events sys_open =>
    have hl : req_events.Nodup := hop
    refine ⟨?_, ?_⟩
    · intro self hself
      simp only [World.step, List.mem_append, List.mem_singleton] at hself
      rcases hself with h | h
      · exact hnd self h
      · subst h; exact hl
    · intro k
      have h1 := (perf_start_nodup sys_open k req_events w.reg hl).1
      have h2 := hcnt k
      simp only [World.step, World.holders, ctor, restart, List.countP_append,
        List.countP_cons, List.countP_nil] at h1 h2 ⊢
      rw [h1, h2]
      by_cases hk : k ∈ req_events <;> simp [hk]
  | copy_construct src sys_open =>
    cases hsrc : w.live[src]? with
    | none => simpa only [World.step, hsrc] using And.intro hnd hcnt
    | some other =>
      have hl : other.req_events.Nodup := hnd other (mem_of_getElem? hsrc)
      refine ⟨?_, ?_⟩
      · intro self hself
        simp only [World.step, hsrc, List.mem_append, List.mem_singleton] at hself
        rcases hself with h | h
        · exact hnd self h
        · subst h; exact hl
      · intro k
        have h1 := (perf_start_nodup sys_open k other.req_events w.reg hl).1
        have h2 := hcnt k
        simp only [World.step, hsrc, World.holders, copy_ctor, List.countP_append,
          List.countP_cons, List.countP_nil] at h1 h2 ⊢
        rw [h1, h2]
        by_cases hk : k ∈ other.req_events <;> simp [hk]
  | move_construct src =>
    cases hsrc : w.live[src]? with
    | none => simpa only [World.step, hsrc] using And.intro hnd hcnt
    | some other =>
      have hl : other.req_events.Nodup := hnd other (mem_of_getElem? hsrc)
      refine ⟨?_, ?_⟩
      · intro self hself
        simp only [World.step, hsrc, move_ctor, List.mem_append, List.mem_singleton] at hself
        rcases hself with h | h
        · rcases List.mem_or_eq_of_mem_set h with h | h
          · exact hnd self h
          · subst h; exact List.nodup_nil
        · subst h; exact hl
      · intro k
        have h1 := countP_set_add (fun self : Instance => decide (k ∈ self.req_events))
          { req_events := [], start_count := [], total_count := [] } w.live src other hsrc
        have h2 := hcnt k
        simp only [World.step, hsrc, World.holders, move_ctor, List.countP_append,
          List.countP_cons, List.countP_nil] at h1 h2 ⊢
        rw [h2]
        by_cases hk : k ∈ other.req_events <;> simp [hk] at h1 ⊢ <;> omega
  | copy_assign dst src sys_open =>
    cases hdst : w.live[dst]? with
    | none => simpa only [World.step, hdst] using And.intro hnd hcnt
    | some self =>
      cases hsrc : w.live[src]? with
      | none => simpa only [World.step, hdst, hsrc] using And.intro hnd hcnt
      | some other =>
        have hl : other.req_events.Nodup := hnd other (mem_of_getElem? hsrc)
        have hs : self.req_events.Nodup := hnd self (mem_of_getElem? hdst)
        refine ⟨?_, ?_⟩
        · intro x hx
          simp only [World.step, hdst, hsrc, copy_assign, move_assign, copy_ctor] at hx
          rcases List.mem_or_eq_of_mem_set hx with h | h
          · exact hnd x h
          · subst h; exact hl
        · intro k
          have h1 := perf_start_nodup sys_open k other.req_events w.reg hl
          have h3 := (dtor_nodup k self.req_events
            (perf_start sys_open w.reg other.req_events).1 hs).1
          have h4 := countP_set_add (fun x : Instance => decide (k ∈ x.req_events))
            { req_events := other.req_events, start_count := other.start_count,
              total_count := other.total_count } w.live dst self hdst
          have h2 := hcnt k
          simp only [World.step, hdst, hsrc, World.holders, copy_assign, move_assign, copy_ctor,
            dtor] at h1 h2 h3 h4 ⊢
          rw [h3, h1.1, h2]
          by_cases hk : k ∈ other.req_events <;> by_cases hk2 : k ∈ self.req_events <;>
            simp [hk, hk2] at h4 ⊢ <;> omega
  | destroy i =>
    cases hi : w.live[i]? with
    | none => simpa only [World.step, hi] using And.intro hnd hcnt
    | some self =>
      have hs : self.req_events.Nodup := hnd self (mem_of_getElem? hi)
      refine ⟨?_, ?_⟩
      · intro x hx
        simp only [World.step, hi] at hx
        exact hnd x (List.mem_of_mem_eraseIdx hx)
      · intro k
        have h3 := (dtor_nodup k self.req_events w.reg hs).1
        have h4 := countP_eraseIdx_add (fun x : Instance => decide (k ∈ x.req_events))
          w.live i self hi
        have h2 := hcnt k
        simp only [World.step, hi, World.holders, dtor] at h2 h3 h4 ⊢
        rw [h3, h2]
        by_cases hk : k ∈ self.req_events <;> simp [hk] at h4 ⊢ <;> omega
  | move_assign dst src =>
    cases hdst : w.live[dst]? with
    | none => simpa only [World.step, hdst] using And.intro hnd hcnt
    | some self =>
      cases hsrc : w.live[src]? with
      | none => simpa only [World.step, hdst, hsrc] using And.intro hnd hcnt
      | some other =>
        have hl : other.req_events.Nodup := hnd other (mem_of_getElem? hsrc)
        have hs : self.req_events.Nodup := hnd self (mem_of_getElem? hdst)
        refine ⟨?_, ?_⟩
        · intro x hx
          simp only [World.step, hdst, hsrc, move_assign] at hx
          rcases List.mem_or_eq_of_mem_set hx with h | h
          · rcases List.mem_or_eq_of_mem_set h with h | h
            · exact hnd x h
            · subst h; exact hl
          · subst h; exact hs
        · intro k
          have h4 := countP_set_add (fun x : Instance => decide (k ∈ x.req_events))
            { req_events := other.req_events, start_count := other.start_count,
              total_count := other.total_count } w.live dst self hdst
          have hmid : ∃ y : Instance, y.req_events = other.req_events ∧
              (w.live.set dst
                { req_events := other.req_events, start_count := other.start_count,
                  total_count := other.total_count })[src]? = some y := by
            rw [List.getElem?_set]
            by_cases hds : dst = src
            · subst hds
              have hlt : dst < w.live.length := (List.getElem?_eq_some_iff.mp hdst).1
              exact ⟨_, rfl, by simp [hlt]⟩
            · exact ⟨other, rfl, by simp [hds, hsrc]⟩
          obtain ⟨y, hy, hget⟩ := hmid
          have h5 := countP_set_add (fun x : Instance => decide (k ∈ x.req_events))
            { req_events := self.req_events, start_count := self.start_count,
              total_count := self.total_count } _ src y hget
          have h2 := hcnt k
          simp only [World.step, hdst, hsrc, World.holders, move_assign, hy] at h2 h4 h5 ⊢
          rw [h2]
          by_cases hk : k ∈ other.req_events <;> by_cases hk2 : k ∈ self.req_events <;>
            simp [hk, hk2] at h4 h5 ⊢ <;> omega
  | restart i =>
    cases hi : w.live[i]? with
    | none => simpa only [World.step, hi] using And.intro hnd hcnt
    | some self =>
      have hs : self.req_events.Nodup := hnd self (mem_of_getElem? hi)
      refine ⟨?_, ?_⟩
      · intro x hx
        simp only [World.step, hi, restart] at hx
        rcases List.mem_or_eq_of_mem_set hx with h | h
        · exact hnd x h
        · subst h; exact hs
      · intro k
        have h4 := countP_set_add (fun x : Instance => decide (k ∈ x.req_events))
          (restart w.reg self).out w.live i self hi
        have h2 := hcnt k
        simp only [World.step, hi, World.holders, restart] at h2 h4 ⊢
        rw [h2]
        omega
  | play i sys_read =>
    cases hi : w.live[i]? with
    | none => simpa only [World.step, hi] using And.intro hnd hcnt
    | some self =>
      have hs : self.req_events.Nodup := hnd self (mem_of_getElem? hi)
      refine ⟨?_, ?_⟩
      · intro x hx
        simp only [World.step, hi, play] at hx
        rcases List.mem_or_eq_of_mem_set hx with h | h
        · exact hnd x h
        · subst h; exact hs
      · intro k
        have h4 := countP_set_add (fun x : Instance => decide (k ∈ x.req_events))
          (play sys_read w.reg self).out w.live i self hi
        have h2 := hcnt k
        simp only [World.step, hi, World.holders, play] at h2 h4 ⊢
        rw [h2]
        omega
  | pause i sys_read =>
    cases hi : w.live[i]? with
    | none => simpa only [World.step, hi] using And.intro hnd hcnt
    | some self =>
      have hs : self.req_events.Nodup := hnd self (mem_of_getElem? hi)
      refine ⟨?_, ?_⟩
      · intro x hx
        simp only [World.step, hi, pause] at hx
        rcases List.mem_or_eq_of_mem_set hx with h | h
        · exact hnd x h
        · subst h; exact hs
      · intro k
        have h4 := countP_set_add (fun x : Instance => decide (k ∈ x.req_events))
          (pause sys_read w.reg self).out w.live i self hi
        have h2 := hcnt k
        simp only [World.step, hi, World.holders, pause] at h2 h4 ⊢
        rw [h2]
        omega

theorem World.run_balanced (ops : List Op) :
    ∀ w : World, w.balanced → (∀ op ∈ ops, op.duplicate_free) → (w.run ops).balanced := by
  induction ops with
  | nil => intro w hw _; simpa [World.run] using hw
  | cons op rest ih =>
    intro w hw hops
    have h1 := World.step_balanced w op hw (hops op (List.mem_cons_self _ _))
    have h2 := ih (w.step op) h1 (fun o ho => hops o (List.mem_cons_of_mem _ ho))
    simpa [World.run] using h2

theorem play_reads_before (reg : Registry) (sys_read : Nat → Int → Option Nat) (l : List Event) :
    ∀ (i : Nat) (start_count : List Nat) (j : Nat), j < i →
      (play_reads reg sys_read i l start_count).1[j]? = start_count[j]? := by
  induction l with
  | nil => intro i sc j _; simp [play_reads]
  | cons e rest ih =>
    intro i sc j hj
    unfold play_reads
    by_cases hfd : reg.fd e = -1
    · rw [if_pos hfd]; exact ih (i + 1) sc j (by omega)
    · rw [if_neg hfd]
      cases hr : sys_read i (reg.fd e) with
      | none => exact ih (i + 1) sc j (by omega)
      | some v =>
        show (play_reads reg sys_read (i + 1) rest (sc.set i v)).1[j]? = sc[j]?
        rw [ih (i + 1) (sc.set i v) j (by omega), List.getElem?_set]
        simp [show ¬ i = j by omega]

theorem play_reads_at (reg : Registry) (sys_read : Nat → Int → Option Nat) (l : List Event) :
    ∀ (i : Nat) (start_count : List Nat) (n : Nat) (e : Event), l[n]? = some e →
      (play_reads reg sys_read i l start_count).1[i + n]? =
        if reg.fd e = -1 then start_count[i + n]?
        else match sys_read (i + n) (reg.fd e) with
          | some v => (start_count.set (i + n) v)[i + n]?
          | none => start_count[i + n]? := by
  induction l with
  | nil => intro i sc n e h; simp at h
  | cons e0 rest ih =>
    intro i sc n e h
    cases n with
    | zero =>
      simp only [List.getElem?_cons_zero, Option.some.injEq] at h
      subst h
      unfold play_reads
      by_cases hfd : reg.fd e0 = -1
      · simp only [if_pos hfd, Nat.add_zero]
        exact play_reads_before reg sys_read rest (i + 1) sc i (by omega)
      · simp only [if_neg hfd, Nat.add_zero]
        cases hr : sys_read i (reg.fd e0) with
        | none => exact play_reads_before reg sys_read rest (i + 1) sc i (by omega)
        | some v => exact play_reads_before reg sys_read rest (i + 1) (sc.set i v) i (by omega)
    | succ m =>
      simp only [List.getElem?_cons_succ] at h
      have hidx : i + (m + 1) = (i + 1) + m := by omega
      rw [hidx]
      unfold play_reads
      by_cases hfd : reg.fd e0 = -1
      · rw [if_pos hfd]; exact ih (i + 1) sc m e h
      · rw [if_neg hfd]
        cases hr : sys_read i (reg.fd e0) with
        | none => exact ih (i + 1) sc m e h
        | some v =>
          show (play_reads reg sys_read (i + 1) rest (sc.set i v)).1[i + 1 + m]? = _
          rw [ih (i + 1) (sc.set i v) m e h]
          have hne : ¬ i = i + 1 + m := by omega
          by_cases hfe : reg.fd e = -1
          · simp [hfe, List.getElem?_set, hne]
          · simp only [if_neg hfe]
            cases sys_read (i + 1 + m) (reg.fd e) with
            | none => simp [List.getElem?_set, hne]
            | some v2 => simp [List.getElem?_set]

theorem add64_sub64 (total stop base : Nat) :
    add64 total (sub64 stop base) =
      (((total : Int) + ((stop : Int) - (base : Int))) % 2 ^ 64).toNat := by
  unfold add64 sub64
  omega

theorem pause_reads_before (reg : Registry) (sys_read : Nat → Int → Option Nat)
    (start_count : List Nat) (l : List Event) :
    ∀ (i : Nat) (total_count : List Nat) (j : Nat), j < i →
      (pause_reads reg sys_read start_count i l total_count).1[j]? = total_count[j]? := by
  induction l with
  | nil => intro i tc j _; simp [pause_reads]
  | cons e rest ih =>
    intro i tc j hj
    unfold pause_reads
    by_cases hfd : reg.fd e = -1
    · rw [if_pos hfd]; exact ih (i + 1) tc j (by omega)
    · rw [if_neg hfd]
      cases hr : sys_read i (reg.fd e) with
      | none => exact ih (i + 1) tc j (by omega)
      | some v =>
        show (pause_reads reg sys_read start_count (i + 1) rest (tc.set i _)).1[j]? = tc[j]?
        rw [ih (i + 1) (tc.set i _) j (by omega), List.getElem?_set]
        simp [show ¬ i = j by omega]

theorem pause_reads_at (reg : Registry) (sys_read : Nat → Int → Option Nat)
    (start_count : List Nat) (l : List Event) :
    ∀ (i : Nat) (total_count : List Nat) (n : Nat) (e : Event), l[n]? = some e →
      (pause_reads reg sys_read start_count i l total_count).1[i + n]? =
        if reg.fd e = -1 then total_count[i + n]?
        else match sys_read (i + n) (reg.fd e) with
          | some v =>
            (total_count.set (i + n)
              (add64 (total_count.getD (i + n) 0) (sub64 v (start_count.getD (i + n) 0))))[i + n]?
          | none => total_count[i + n]? := by
  induction l with
  | nil => intro i tc n e h; simp at h
  | cons e0 rest ih =>
    intro i tc n e h
    cases n with
    | zero =>
      simp only [List.getElem?_cons_zero, Option.some.injEq] at h
      subst h
      unfold pause_reads
      by_cases hfd : reg.fd e0 = -1
      · simp only [if_pos hfd, Nat.add_zero]
        exact pause_reads_before reg sys_read start_count rest (i + 1) tc i (by omega)
      · simp only [if_neg hfd, Nat.add_zero]
        cases hr : sys_read i (reg.fd e0) with
        | none => exact pause_reads_before reg sys_read start_count rest (i + 1) tc i (by omega)
        | some v =>
          exact pause_reads_before reg sys_read start_count rest (i + 1) (tc.set i _) i (by omega)
    | succ m =>
      simp only [List.getElem?_cons_succ] at h
      have hidx : i + (m + 1) = (i + 1) + m := by omega
      rw [hidx]
      unfold pause_reads
      by_cases hfd : reg.fd e0 = -1
      · rw [if_pos hfd]; exact ih (i + 1) tc m e h
      · rw [if_neg hfd]
        cases hr : sys_read i (reg.fd e0) with
        | none => exact ih (i + 1) tc m e h
        | some v =>
          show (pause_reads reg sys_read start_count (i + 1) rest (tc.set i _)).1[i + 1 + m]? = _
          rw [ih (i + 1) (tc.set i _) m e h]
          have hne : ¬ i = i + 1 + m := by omega
          by_cases hfe : reg.fd e = -1
          · simp [hfe, List.getElem?_set, hne]
          · simp only [if_neg hfe]
            cases sys_read (i + 1 + m) (reg.fd e) with
            | none => simp [List.getElem?_set, hne]
            | some v2 => simp [List.getElem?_set, List.getD_eq_getElem?_getD, hne]

theorem get_counter_from_spec (reg : Registry) (total_count : List Nat) (k : Event)
    (l : List Event) :
    ∀ i : Nat,
      get_counter_from reg total_count k i l =
        if k ∈ l ∧ reg.fd k ≠ -1 then Except.ok (total_count.getD (i + l.indexOf k) 0)
        else Except.error non_tracked_error := by
  induction l with
  | nil => intro i; simp [get_counter_from]
  | cons e rest ih =>
    intro i
    unfold get_counter_from
    by_cases he : e = k
    · subst he
      by_cases hfd : reg.fd e = -1
      · simp [hfd, ih (i + 1)]
      · simp [hfd]
    · have hne : ¬ k = e := fun h => he h.symm
      rw [if_neg (fun h => he h.1), ih (i + 1)]
      by_cases hmem : k ∈ rest ∧ reg.fd k ≠ -1
      · rw [if_pos hmem, if_pos ⟨List.mem_cons_of_mem _ hmem.1, hmem.2⟩,
          List.indexOf_cons_ne _ he]
        congr 2
        omega
      · rw [if_neg hmem, if_neg]
        rintro ⟨h1, h2⟩
        rcases List.mem_cons.mp h1 with h | h
        · exact hne h
        · exact hmem ⟨h, h2⟩

theorem perf_start_keeps_refused (sys_open : Event → Int) (k : Event) (hfail : sys_open k = -1)
    (l : List Event) :
    ∀ reg : Registry, reg.fd k = -1 → (perf_start sys_open reg l).1.fd k = -1 := by
  induction l with
  | nil => intro reg h; simpa [perf_start, for_each] using h
  | cons e rest ih =>
    intro reg h
    have h1 : (perf_start_body sys_open reg e).1.fd k = -1 := by
      rw [perf_start_body_fd]
      by_cases hc : k = e ∧ reg.tracked_events e = 0
      · rw [if_pos hc, ← hc.1, hfail]
      · rw [if_neg hc, h]
    exact ih _ h1

theorem perf_start_refused (sys_open : Event → Int) (k : Event) (hfail : sys_open k = -1)
    (l : List Event) :
    ∀ reg : Registry, k ∈ l → reg.tracked_events k = 0 →
      (perf_start sys_open reg l).1.fd k = -1 := by
  induction l with
  | nil => intro reg h; simp at h
  | cons e rest ih =>
    intro reg hmem h0
    by_cases hk : k = e
    · subst hk
      have h1 : (perf_start_body sys_open reg k).1.fd k = -1 := by
        rw [perf_start_body_fd, if_pos ⟨rfl, h0⟩, hfail]
      exact perf_start_keeps_refused sys_open k hfail rest _ h1
    · have hrest : k ∈ rest := by
        rcases List.mem_cons.mp hmem with h | h
        · exact absurd h hk
        · exact h
      have h1 : (perf_start_body sys_open reg e).1.tracked_events k = 0 := by
        rw [perf_start_body_tracked, if_neg hk, h0]
      exact ih _ hrest h1

theorem opens_of_perf_start_body (sys_open : Event → Int) (reg : Registry) (e k : Event) :
    opens_of k (perf_start_body sys_open reg e).2 =
      if k = e ∧ reg.tracked_events e = 0 then 1 else 0 := by
  unfold perf_start_body opens_of
  by_cases h0 : reg.tracked_events e = 0
  · by_cases hk : k = e
    · subst hk
      by_cases hf : sys_open k = -1 <;> simp [h0, hf, List.countP_cons]
    · have hk' : ¬ e = k := fun h => hk h.symm
      by_cases hf : sys_open e = -1 <;> simp [h0, hf, hk, hk', List.countP_cons]
  · simp [h0]

theorem opens_of_perf_start (sys_open : Event → Int) (k : Event) (l : List Event) :
    ∀ reg : Registry, l.Nodup →
      opens_of k (perf_start sys_open reg l).2 =
        if k ∈ l ∧ reg.tracked_events k = 0 then 1 else 0 := by
  induction l with
  | nil => intro reg _; simp [perf_start, for_each, opens_of]
  | cons e rest ih =>
    intro reg hnd
    have hrest := ih (perf_start_body sys_open reg e).1 (List.nodup_cons.mp hnd).2
    have hnot : e ∉ rest := (List.nodup_cons.mp hnd).1
    have happ : ∀ a b : List Call, opens_of k (a ++ b) = opens_of k a + opens_of k b := by
      intro a b; simp [opens_of]
    simp only [perf_start, for_each] at hrest ⊢
    rw [happ, hrest, opens_of_perf_start_body, perf_start_body_tracked]
    by_cases hk : k = e
    · subst hk; simp [hnot]
    · simp [hk]

theorem closes_of_dtor_body (reg : Registry) (e k : Event) :
    closes_of k (dtor_body reg e).2 =
      if k = e ∧ reg.fd e ≠ -1 ∧ (reg.tracked_events e + (2 ^ 32 - 1)) % 2 ^ 32 = 0 then 1
      else 0 := by
  unfold dtor_body closes_of
  simp only [Function.update_same]
  by_cases hc : reg.fd e ≠ -1 ∧ (reg.tracked_events e + (2 ^ 32 - 1)) % 2 ^ 32 = 0
  · rw [if_pos hc]
    by_cases hk : k = e
    · subst hk; rw [if_pos ⟨rfl, hc⟩]; simp [List.countP_cons]
    · have hk' : ¬ e = k := fun h => hk h.symm
      rw [if_neg (fun h => hk h.1)]; simp [List.countP_cons, hk']
  · rw [if_neg hc, if_neg (fun h => hc h.2)]; simp

theorem closes_of_dtor (k : Event) (l : List Event) :
    ∀ reg : Registry, l.Nodup →
      closes_of k (for_each dtor_body reg l).2 =
        if k ∈ l ∧ reg.fd k ≠ -1 ∧ (reg.tracked_events k + (2 ^ 32 - 1)) % 2 ^ 32 = 0 then 1
        else 0 := by
  induction l with
  | nil => intro reg _; simp [for_each, closes_of]
  | cons e rest ih =>
    intro reg hnd
    have hrest := ih (dtor_body reg e).1 (List.nodup_cons.mp hnd).2
    have hnot : e ∉ rest := (List.nodup_cons.mp hnd).1
    have happ : ∀ a b : List Call, closes_of k (a ++ b) = closes_of k a + closes_of k b := by
      intro a b; simp [closes_of]
    simp only [for_each] at hrest ⊢
    rw [happ, hrest, closes_of_dtor_body, dtor_body_tracked, dtor_body_fd]
    by_cases hk : k = e
    · subst hk; simp [hnot]
    · simp [hk]

theorem reads_of_append (k : Event) (a b : List Call) :
    reads_of k (a ++ b) = reads_of k a + reads_of k b := by
  simp [reads_of]

theorem reads_of_toggle_all (k : Event) (reg : Registry) (request : IoctlRequest) :
    reads_of k (toggle_all reg request) = 0 := by
  unfold reads_of
  rw [List.countP_eq_zero]
  intro c hc
  simp only [toggle_all, List.mem_flatMap] at hc
  obtain ⟨j, _, hj⟩ := hc
  split_ifs at hj <;> simp at hj <;> subst hj <;> simp

theorem reads_of_play_reads (k : Event) (reg : Registry) (hfd : reg.fd k = -1)
    (sys_read : Nat → Int → Option Nat) (l : List Event) :
    ∀ (i : Nat) (start_count : List Nat),
      reads_of k (play_reads reg sys_read i l start_count).2 = 0 := by
  induction l with
  | nil => intro i sc; simp [play_reads, reads_of]
  | cons e rest ih =>
    intro i sc
    unfold play_reads
    by_cases he : reg.fd e = -1
    · rw [if_pos he]; exact ih (i + 1) sc
    · rw [if_neg he]
      have hne : ¬ e = k := fun h => he (h ▸ hfd)
      cases hr : sys_read i (reg.fd e) with
      | none =>
        have := ih (i + 1) sc
        simp only [reads_of, List.countP_cons] at this ⊢
        rw [this]
        simp [hne]
      | some v =>
        have := ih (i + 1) (sc.set i v)
        simp only [reads_of, List.countP_cons] at this ⊢
        rw [this]
        simp [hne]

theorem reads_of_pause_reads (k : Event) (reg : Registry) (hfd : reg.fd k = -1)
    (sys_read : Nat → Int → Option Nat) (start_count : List Nat) (l : List Event) :
    ∀ (i : Nat) (total_count : List Nat),
      reads_of k (pause_reads reg sys_read start_count i l total_count).2 = 0 := by
  induction l with
  | nil => intro i tc; simp [pause_reads, reads_of]
  | cons e rest ih =>
    intro i tc
    unfold pause_reads
    by_cases he : reg.fd e = -1
    · rw [if_pos he]; exact ih (i + 1) tc
    · rw [if_neg he]
      have hne : ¬ e = k := fun h => he (h ▸ hfd)
      cases hr : sys_read i (reg.fd e) with
      | none =>
        have := ih (i + 1) tc
        simp only [reads_of, List.countP_cons] at this ⊢
        rw [this]
        simp [hne]
      | some v =>
        have := ih (i + 1) (tc.set i (add64 (tc.getD i 0) (sub64 v (start_count.getD i 0))))
        simp only [reads_of, List.countP_cons] at this ⊢
        rw [this]
        simp [hne]

theorem World.step_keeps_absent (w : World) (op : Op) (k : Event) (hw : w.balanced)
    (hop : op.duplicate_free) (hfd : w.reg.fd k = -1) (hpos : w.reg.tracked_events k ≠ 0) :
    (w.step op).reg.fd k = -1 := by
  obtain ⟨hnd, _⟩ := hw
  have hstart : ∀ (sys_open : Event → Int) (l : List Event), l.Nodup →
      (perf_start sys_open w.reg l).1.fd k = -1 := by
    intro sys_open l hl
    rw [(perf_start_nodup sys_open k l w.reg hl).2, if_neg (fun h => hpos h.2), hfd]
  have hdtor : ∀ (reg : Registry) (l : List Event), l.Nodup → reg.fd k = -1 →
      (for_each dtor_body reg l).1.fd k = -1 := by
    intro reg l hl h
    rw [(dtor_nodup k l reg hl).2]
    split_ifs
    · rfl
    · exact h
  cases op with
  | construct req_events sys_open => exact hstart sys_open req_events hop
  | copy_construct src sys_open =>
    cases hsrc : w.live[src]? with
    | none => simpa only [World.step, hsrc] using hfd
    | some other =>
      simp only [World.step, hsrc]
      exact hstart sys_open other.req_events (hnd other (mem_of_getElem? hsrc))
  | move_construct src =>
    cases hsrc : w.live[src]? with
    | none => simpa only [World.step, hsrc] using hfd
    | some other => simpa only [World.step, hsrc, move_ctor] using hfd
  | copy_assign dst src sys_open =>
    cases hdst : w.live[dst]? with
    | none => simpa only [World.step, hdst] using hfd
    | some self =>
      cases hsrc : w.live[src]? with
      | none => simpa only [World.step, hdst, hsrc] using hfd
      | some other =>
        simp only [World.step, hdst, hsrc]
        exact hdtor _ self.req_events (hnd self (mem_of_getElem? hdst))
          (hstart sys_open other.req_events (hnd other (mem_of_getElem? hsrc)))
  | move_assign dst src =>
    cases hdst : w.live[dst]? with
    | none => simpa only [World.step, hdst] using hfd
    | some self =>
      cases hsrc : w.live[src]? with
      | none => simpa only [World.step, hdst, hsrc] using hfd
      | some other => simpa only [World.step, hdst, hsrc, move_assign] using hfd
  | destroy i =>
    cases hi : w.live[i]? with
    | none => simpa only [World.step, hi] using hfd
    | some self =>
      simp only [World.step, hi]
      exact hdtor _ self.req_events (hnd self (mem_of_getElem? hi)) hfd
  | restart i =>
    cases hi : w.live[i]? with
    | none => simpa only [World.step, hi] using hfd
    | some self => simpa only [World.step, hi, restart] using hfd
  | play i sys_read =>
    cases hi : w.live[i]? with
    | none => simpa only [World.step, hi] using hfd
    | some self => simpa only [World.step, hi, play] using hfd
  | pause i sys_read =>
    cases hi : w.live[i]? with
    | none => simpa only [World.step, hi] using hfd
    | some self => simpa only [World.step, hi, pause] using hfd

theorem World.run_keeps_absent (k : Event) (ops : List Op) :
    ∀ w : World, w.balanced → (∀ op ∈ ops, op.duplicate_free) → w.reg.fd k = -1 →
      (∀ n, n < ops.length → (w.run (ops.take n)).reg.tracked_events k ≠ 0) →
      (w.run ops).reg.fd k = -1 := by
  induction ops with
  | nil => intro w _ _ hfd _; simpa [World.run] using hfd
  | cons op rest ih =>
    intro w hw hops hfd hpos
    have hop := hops op (List.mem_cons_self _ _)
    have h0 : w.reg.tracked_events k ≠ 0 := by
      have := hpos 0 (by simp)
      simpa [World.run] using this
    have h1 := World.step_keeps_absent w op k hw hop hfd h0
    have h2 := World.step_balanced w op hw hop
    have h3 := ih (w.step op) h2 (fun o ho => hops o (List.mem_cons_of_mem _ ho)) h1
      (fun n hn => by
        have := hpos (n + 1) (by simp; omega)
        simpa [World.run] using this)
    simpa [World.run] using h3

theorem World.holders_pos (w : World) (i : Nat) (s : Instance) (k : Event)
    (hs : w.live[i]? = some s) (hk : k ∈ s.req_events) : 0 < w.holders k := by
  unfold World.holders
  rw [List.countP_pos_iff]
  exact ⟨s, mem_of_getElem? hs, by simpa using hk⟩

theorem perf_start_quiet (sys_open : Event → Int) (l : List Event) :
    ∀ reg : Registry, l.Nodup → (∀ k ∈ l, reg.tracked_events k ≠ 0) →
      (perf_start sys_open reg l).2 = [] ∧ (perf_start sys_open reg l).1.fd = reg.fd := by
  induction l with
  | nil => intro reg _ _; simp [perf_start, for_each]
  | cons e rest ih =>
    intro reg hnd hpos
    have he : reg.tracked_events e ≠ 0 := hpos e (List.mem_cons_self _ _)
    have hnot : e ∉ rest := (List.nodup_cons.mp hnd).1
    have hbody2 : (perf_start_body sys_open reg e).2 = [] := by
      unfold perf_start_body; rw [if_neg he]
    have hbodyfd : (perf_start_body sys_open reg e).1.fd = reg.fd := by
      unfold perf_start_body; rw [if_neg he]
    have hrest := ih (perf_start_body sys_open reg e).1 (List.nodup_cons.mp hnd).2 (by
      intro k hk
      have hne : ¬ k = e := fun h => hnot (h ▸ hk)
      rw [perf_start_body_tracked, if_neg hne]
      exact hpos k (List.mem_cons_of_mem _ hk))
    simp only [perf_start, for_each] at hrest ⊢
    rw [hrest.1, hrest.2, hbody2, hbodyfd]
    exact ⟨rfl, rfl⟩

theorem closes_of_perf_start (sys_open : Event → Int) (k : Event) (l : List Event) :
    ∀ reg : Registry, closes_of k (perf_start sys_open reg l).2 = 0 := by
  induction l with
  | nil => intro reg; simp [perf_start, for_each, closes_of]
  | cons e rest ih =>
    intro reg
    have hrest := ih (perf_start_body sys_open reg e).1
    have hbody : closes_of k (perf_start_body sys_open reg e).2 = 0 := by
      unfold perf_start_body closes_of
      by_cases h0 : reg.tracked_events e = 0
      · by_cases hf : sys_open e = -1 <;> simp [h0, hf, List.countP_cons]
      · simp [h0]
    have happ : ∀ a b : List Call, closes_of k (a ++ b) = closes_of k a + closes_of k b := by
      intro a b; simp [closes_of]
    simp only [perf_start, for_each] at hrest ⊢
    rw [happ, hrest, hbody]

theorem get_counter_congr_fd (reg reg2 : Registry) (self : Instance) (k : Event)
    (h : reg2.fd = reg.fd) : get_counter reg2 self k = get_counter reg self k := by
  unfold get_counter
  rw [get_counter_from_spec, get_counter_from_spec, h]


/-- Claim C13. Let `a` (at position `dst`) and `b` (at position `src`, possibly the same
position) be live objects of a process run from its start.  The copy assignment `a = b`
leaves at `dst` an object with the `req_events`, `start_count` and `total_count` of `b`, and
`b` is still at `src`.  Each `tracked_events[k]` is first incremented if `k` is in the list of
`b` and then decremented if `k` is in the former list of `a` (both modulo `2 ^ 32`); when the
holders of `k` leave room this is a change by exactly `+1` and `-1`.  A `close` for `k` is made
only if `tracked_events[k]` ends at 0, and for a kind `k` of `b` (holders below `2 ^ 32`) no
`close` is made and `fd[k]` is as before. -/
theorem C13_copy_assignment (ops : List Op) (hops : ∀ op ∈ ops, op.duplicate_free)
    (dst src : Nat) (a b : Instance) (sys_open : Event → Int)
    (ha : (World.initial.run ops).live[dst]? = some a)
    (hb : (World.initial.run ops).live[src]? = some b) :
    (copy_assign sys_open (World.initial.run ops).reg a b).out.req_events = b.req_events ∧
      (copy_assign sys_open (World.initial.run ops).reg a b).out.start_count
        = b.start_count ∧
      (copy_assign sys_open (World.initial.run ops).reg a b).out.total_count
        = b.total_count ∧
      ((World.initial.run ops).step (Op.copy_assign dst src sys_open)).live[dst]? = some b ∧
      ((World.initial.run ops).step (Op.copy_assign dst src sys_open)).live[src]? = some b ∧
      (∀ k, (copy_assign sys_open (World.initial.run ops).reg a b).reg.tracked_events k =
        if k ∈ a.req_events then
          ((if k ∈ b.req_events then ((World.initial.run ops).reg.tracked_events k + 1) % 2 ^ 32
            else (World.initial.run ops).reg.tracked_events k) + (2 ^ 32 - 1)) % 2 ^ 32
        else if k ∈ b.req_events then ((World.initial.run ops).reg.tracked_events k + 1) % 2 ^ 32
        else (World.initial.run ops).reg.tracked_events k) ∧
      (∀ k, (World.initial.run ops).holders k + 1 < 2 ^ 32 →
        ((copy_assign sys_open (World.initial.run ops).reg a b).reg.tracked_events k : Int) =
          ((World.initial.run ops).reg.tracked_events k : Int) +
            (if k ∈ b.req_events then 1 else 0) - (if k ∈ a.req_events then 1 else 0)) ∧
      (∀ k, closes_of k (copy_assign sys_open (World.initial.run ops).reg a b).calls ≠ 0 →
        (copy_assign sys_open (World.initial.run ops).reg a b).reg.tracked_events k = 0) ∧
      (∀ k ∈ b.req_events, (World.initial.run ops).holders k < 2 ^ 32 →
        closes_of k (copy_assign sys_open (World.initial.run ops).reg a b).calls = 0 ∧
          (copy_assign sys_open (World.initial.run ops).reg a b).reg.fd k =
            (World.initial.run ops).reg.fd k) := by
  have hbal := World.run_balanced ops World.initial World.initial_balanced hops
  generalize World.initial.run ops = w at ha hb hbal ⊢
  have hnda : a.req_events.Nodup := hbal.1 a (mem_of_getElem? ha)
  have hndb : b.req_events.Nodup := hbal.1 b (mem_of_getElem? hb)
  have hlt : dst < w.live.length := (List.getElem?_eq_some_iff.mp ha).1
  have hP := fun k => perf_start_nodup sys_open k b.req_events w.reg hndb
  have hD := fun k => dtor_nodup k a.req_events (perf_start sys_open w.reg b.req_events).1 hnda
  have hC := fun k => closes_of_dtor k a.req_events
    (perf_start sys_open w.reg b.req_events).1 hnda
  have hcalls : ∀ k, closes_of k (copy_assign sys_open w.reg a b).calls =
      closes_of k (for_each dtor_body (perf_start sys_open w.reg b.req_events).1
        a.req_events).2 := by
    intro k
    have happ : ∀ x y : List Call, closes_of k (x ++ y) = closes_of k x + closes_of k y := by
      intro x y; simp [closes_of]
    simp only [copy_assign, copy_ctor, move_assign, dtor, List.append_nil]
    rw [happ, closes_of_perf_start, Nat.zero_add]
  have htr : ∀ k, (copy_assign sys_open w.reg a b).reg.tracked_events k =
      if k ∈ a.req_events then
        ((if k ∈ b.req_events then (w.reg.tracked_events k + 1) % 2 ^ 32
          else w.reg.tracked_events k) + (2 ^ 32 - 1)) % 2 ^ 32
      else if k ∈ b.req_events then (w.reg.tracked_events k + 1) % 2 ^ 32
      else w.reg.tracked_events k := by
    intro k
    show (for_each dtor_body (perf_start sys_open w.reg b.req_events).1
      a.req_events).1.tracked_events k = _
    rw [(hD k).1, (hP k).1]
  refine ⟨rfl, rfl, rfl, ?_, ?_, htr, ?_, ?_, ?_⟩
  · simp only [World.step, ha, hb, List.getElem?_set, hlt, if_true]
    rfl
  · simp only [World.step, ha, hb, List.getElem?_set]
    by_cases hds : dst = src
    · simp only [hds, if_true]
      subst hds
      simp only [hlt, if_true]
      rfl
    · simp only [hds, if_false, hb]
  · intro k hroom
    have hpos : k ∈ a.req_events → 0 < w.holders k := World.holders_pos w dst a k ha
    rw [htr k, hbal.2 k]
    by_cases hka : k ∈ a.req_events <;> by_cases hkb : k ∈ b.req_events
    · have := hpos hka
      simp only [hka, hkb, if_true]; omega
    · have := hpos hka
      simp only [hka, hkb, if_true, if_false]; omega
    · simp only [hka, hkb, if_true, if_false]; omega
    · simp only [hka, hkb, if_false]; omega
  · intro k hne
    rw [hcalls k, hC k] at hne
    by_cases hc : k ∈ a.req_events ∧ (perf_start sys_open w.reg b.req_events).1.fd k ≠ -1 ∧
        ((perf_start sys_open w.reg b.req_events).1.tracked_events k + (2 ^ 32 - 1)) % 2 ^ 32
          = 0
    · show (for_each dtor_body (perf_start sys_open w.reg b.req_events).1
        a.req_events).1.tracked_events k = 0
      rw [(hD k).1, if_pos hc.1]
      exact hc.2.2
    · rw [if_neg hc] at hne
      exact absurd rfl hne
  · intro k hkb hrange
    have h1 := World.holders_pos w src b k hb hkb
    have htk : w.reg.tracked_events k ≠ 0 := by
      rw [hbal.2 k, Nat.mod_eq_of_lt hrange]; omega
    have hmid : ¬ (k ∈ a.req_events ∧ (perf_start sys_open w.reg b.req_events).1.fd k ≠ -1 ∧
        ((perf_start sys_open w.reg b.req_events).1.tracked_events k + (2 ^ 32 - 1)) % 2 ^ 32
          = 0) := by
      rintro ⟨_, _, h0⟩
      rw [(hP k).1, if_pos hkb] at h0
      have hlt32 : w.reg.tracked_events k < 2 ^ 32 := by
        rw [hbal.2 k]; exact Nat.mod_lt _ (by norm_num)
      omega
    refine ⟨?_, ?_⟩
    · rw [hcalls k, hC k, if_neg hmid]
    · show (for_each dtor_body (perf_start sys_open w.reg b.req_events).1
        a.req_events).1.fd k = _
      rw [(hD k).2, if_neg hmid, (hP k).2, if_neg (fun h => htk h.2)]

/-! ## The claims -/

/-- Claim C1. Start from the process in which no object exists and run any finite sequence of
constructions (from duplicate-free lists), copy and move constructions, copy and move
assignments, destructions (and `restart`, `play`, `pause`) of live objects.  Then for every
kind `k` the reference count `tracked_events[k]` is the number of live objects whose
`req_events` contains `k`, reduced modulo `2 ^ 32` (the count is an `unsigned int`); whenever
that number is below `2 ^ 32` the two are equal. -/
theorem C1_tracked_events_counts_holders (ops : List Op)
    (hops : ∀ op ∈ ops, op.duplicate_free) (k : Event) :
    (World.initial.run ops).reg.tracked_events k = (World.initial.run ops).holders k % 2 ^ 32 ∧
      ((World.initial.run ops).holders k < 2 ^ 32 →
        (World.initial.run ops).reg.tracked_events k = (World.initial.run ops).holders k) := by
  have h := (World.run_balanced ops World.initial World.initial_balanced hops).2 k
  exact ⟨h, fun hlt => by rw [h]; exact Nat.mod_eq_of_lt hlt⟩

/-- Witness of C1 on `sample_ops`: three live objects remain and each holds `CPU_CYCLES`. -/
theorem C1_tracked_events_counts_holders_witness :
    (World.initial.run sample_ops).holders Event.CPU_CYCLES = 3 ∧
      (World.initial.run sample_ops).reg.tracked_events Event.CPU_CYCLES =
        (World.initial.run sample_ops).holders Event.CPU_CYCLES :=
  ⟨by decide,
    (C1_tracked_events_counts_holders sample_ops
      (by simp [sample_ops, Op.duplicate_free, Event.CPU_CYCLES, Event.CACHE_MISSES])
      Event.CPU_CYCLES).2 (by decide)⟩

/-- Claim C2, the code at the failing input. In the process in which no object has been
constructed, `fd[INSTRUCTIONS]` is 0, not `-1`, while `tracked_events[INSTRUCTIONS]` is 0: the
handle counts as present although the kind has no reference and no open was ever attempted.
The same holds after an object for another kind has been constructed. -/
theorem C2_initial_fd_is_not_absent :
    World.initial.reg.fd Event.INSTRUCTIONS = 0 ∧
      World.initial.reg.fd Event.INSTRUCTIONS ≠ -1 ∧
      World.initial.reg.tracked_events Event.INSTRUCTIONS = 0 ∧
      (World.initial.run [Op.construct [Event.CPU_CYCLES] (fun _ => 7)]).reg.fd
        Event.INSTRUCTIONS ≠ -1 ∧
      (World.initial.run [Op.construct [Event.CPU_CYCLES] (fun _ => 7)]).reg.tracked_events
        Event.INSTRUCTIONS = 0 := by
  decide

/-- Claim C3. Let position `i` of an object hold the kind `event`, the accumulated total `total`
and the baseline `baseline`.  If the handle of `event` is present and the read at position `i`
delivers `stop_count`, `pause` leaves `(total + (stop_count - baseline)) mod 2 ^ 64` at
position `i` of `total_count`; if the handle is absent or the read fails, the total at
position `i` is unchanged.  `pause` changes neither `start_count`, nor `req_events`, nor the
registry (so no reference count). -/
theorem C3_pause_accumulates (sys_read : Nat → Int → Option Nat) (reg : Registry)
    (self : Instance) (i : Nat) (event : Event) (total baseline : Nat)
    (hi : self.req_events[i]? = some event) (ht : self.total_count[i]? = some total)
    (hb : self.start_count[i]? = some baseline) :
    (reg.fd event ≠ -1 → ∀ stop_count, sys_read i (reg.fd event) = some stop_count →
        (pause sys_read reg self).out.total_count[i]? =
          some (((total : Int) + ((stop_count : Int) - (baseline : Int))) % 2 ^ 64).toNat) ∧
      (reg.fd event = -1 ∨ sys_read i (reg.fd event) = none →
        (pause sys_read reg self).out.total_count[i]? = some total) ∧
      (pause sys_read reg self).out.start_count = self.start_count ∧
      (pause sys_read reg self).out.req_events = self.req_events ∧
      (pause sys_read reg self).reg = reg := by
  have hat := pause_reads_at reg sys_read self.start_count self.req_events 0 self.total_count
    i event hi
  simp only [Nat.zero_add] at hat
  have hlt : i < self.total_count.length := (List.getElem?_eq_some_iff.mp ht).1
  refine ⟨?_, ?_, rfl, rfl, rfl⟩
  · intro hfd stop_count hread
    show (pause_reads reg sys_read self.start_count 0 self.req_events self.total_count).1[i]? = _
    rw [hat, if_neg hfd, hread]
    simp only [List.getElem?_set, hlt, if_true, List.getD_eq_getElem?_getD, ht, hb,
      Option.getD_some, add64_sub64]
  · intro h
    show (pause_reads reg sys_read self.start_count 0 self.req_events self.total_count).1[i]? = _
    rw [hat]
    rcases h with h | h
    · rw [if_pos h, ht]
    · by_cases hfd : reg.fd event = -1
      · rw [if_pos hfd, ht]
      · rw [if_neg hfd, h, ht]

/-- Witness of C3 on `example_instance` in `example_registry`, every read delivering 25: the
total of `CPU_CYCLES` (handle 7) goes from 5 to `5 + (25 - 10) = 20`, the total of
`CACHE_MISSES` (no handle) stays 4. -/
theorem C3_pause_accumulates_witness :
    (pause (fun _ _ => some 25) example_registry example_instance).out.total_count[0]? =
        some 20 ∧
      (pause (fun _ _ => some 25) example_registry example_instance).out.total_count[1]? =
        some 4 :=
  ⟨((C3_pause_accumulates (fun _ _ => some 25) example_registry example_instance 0
      Event.CPU_CYCLES 5 10 rfl rfl rfl).1 (by decide) 25 rfl).trans (by decide),
    (C3_pause_accumulates (fun _ _ => some 25) example_registry example_instance 1
      Event.CACHE_MISSES 4 3 rfl rfl rfl).2.1 (Or.inl (by decide))⟩

/-- Claim C4. Let position `i` of an object hold the kind `event` and a baseline.  If the handle
of `event` is present and the read at position `i` delivers `v`, `play` leaves `v` at position
`i` of `start_count`; if the handle is absent or the read fails, the baseline at position `i`
is unchanged.  `play` changes no accumulated total. -/
theorem C4_play_sets_baselines (sys_read : Nat → Int → Option Nat) (reg : Registry)
    (self : Instance) (i : Nat) (event : Event) (baseline : Nat)
    (hi : self.req_events[i]? = some event) (hb : self.start_count[i]? = some baseline) :
    (reg.fd event ≠ -1 → ∀ v, sys_read i (reg.fd event) = some v →
        (play sys_read reg self).out.start_count[i]? = some v) ∧
      (reg.fd event = -1 ∨ sys_read i (reg.fd event) = none →
        (play sys_read reg self).out.start_count[i]? = some baseline) ∧
      (play sys_read reg self).out.total_count = self.total_count := by
  have hat := play_reads_at reg sys_read self.req_events 0 self.start_count i event hi
  simp only [Nat.zero_add] at hat
  have hlt : i < self.start_count.length := (List.getElem?_eq_some_iff.mp hb).1
  refine ⟨?_, ?_, rfl⟩
  · intro hfd v hread
    show (play_reads reg sys_read 0 self.req_events self.start_count).1[i]? = _
    rw [hat, if_neg hfd, hread]
    simp only [List.getElem?_set, hlt, if_true]
  · intro h
    show (play_reads reg sys_read 0 self.req_events self.start_count).1[i]? = _
    rw [hat]
    rcases h with h | h
    · rw [if_pos h, hb]
    · by_cases hfd : reg.fd event = -1
      · rw [if_pos hfd, hb]
      · rw [if_neg hfd, h, hb]

/-- Witness of C4 on `example_instance` in `example_registry`, every read delivering 25: the
baseline of `CPU_CYCLES` (handle 7) becomes 25, the baseline of `CACHE_MISSES` (no handle)
stays 3. -/
theorem C4_play_sets_baselines_witness :
    (play (fun _ _ => some 25) example_registry example_instance).out.start_count[0]? =
        some 25 ∧
      (play (fun _ _ => some 25) example_registry example_instance).out.start_count[1]? =
        some 3 :=
  ⟨(C4_play_sets_baselines (fun _ _ => some 25) example_registry example_instance 0
      Event.CPU_CYCLES 10 rfl rfl).1 (by decide) 25 rfl,
    (C4_play_sets_baselines (fun _ _ => some 25) example_registry example_instance 1
      Event.CACHE_MISSES 3 rfl rfl).2.1 (Or.inl (by decide))⟩

/-- Claim C5. `get_counter(k)` returns the accumulated total stored at the position of `k` in
`req_events` when `k` is in the list and the handle of `k` is present, and fails with the
"non tracked event" error in every other case, so for every `k` that is not in the list. -/
theorem C5_get_counter (reg : Registry) (self : Instance) (k : Event) :
    (∀ total, k ∈ self.req_events → reg.fd k ≠ -1 →
        self.total_count[self.req_events.indexOf k]? = some total →
        get_counter reg self k = Except.ok total) ∧
      (¬ (k ∈ self.req_events ∧ reg.fd k ≠ -1) →
        get_counter reg self k = Except.error non_tracked_error) ∧
      (k ∉ self.req_events → get_counter reg self k = Except.error non_tracked_error) := by
  have h := get_counter_from_spec reg self.total_count k self.req_events 0
  refine ⟨?_, ?_, ?_⟩
  · intro total hk hfd ht
    unfold get_counter
    rw [h, if_pos ⟨hk, hfd⟩, Nat.zero_add, List.getD_eq_getElem?_getD, ht]
    rfl
  · intro hn
    unfold get_counter
    rw [h, if_neg hn]
  · intro hn
    unfold get_counter
    rw [h, if_neg (fun hc => hn hc.1)]

/-- Witness of C5 on `example_instance` in `example_registry`: `CPU_CYCLES` is requested and
present, `CACHE_MISSES` is requested but absent, `INSTRUCTIONS` is not requested. -/
theorem C5_get_counter_witness :
    get_counter example_registry example_instance Event.CPU_CYCLES = Except.ok 5 ∧
      get_counter example_registry example_instance Event.CACHE_MISSES =
        Except.error non_tracked_error ∧
      get_counter example_registry example_instance Event.INSTRUCTIONS =
        Except.error non_tracked_error :=
  ⟨(C5_get_counter example_registry example_instance Event.CPU_CYCLES).1 5 (by decide)
      (by decide) rfl,
    (C5_get_counter example_registry example_instance Event.CACHE_MISSES).2.1 (by decide),
    (C5_get_counter example_registry example_instance Event.INSTRUCTIONS).2.2 (by decide)⟩

/-- Claim C6 as stated, refuted. In `refused_scenario` the kind `CPU_CYCLES` was requested at
construction and its open attempt failed; after `play` and `pause`, `get_counter(CPU_CYCLES)`
does not return 0: it fails with the "non tracked event" error. -/
theorem C6_counterexample :
    Event.CPU_CYCLES ∈ refused_scenario.out.req_events ∧
      get_counter refused_scenario.reg refused_scenario.out Event.CPU_CYCLES =
        Except.error non_tracked_error ∧
      get_counter refused_scenario.reg refused_scenario.out Event.CPU_CYCLES ≠ Except.ok 0 := by
  refine ⟨by decide, rfl, ?_⟩
  intro h
  have h2 : get_counter refused_scenario.reg refused_scenario.out Event.CPU_CYCLES =
      Except.error non_tracked_error := rfl
  rw [h2] at h
  cases h

/-- Claim C6, amended. Let `k` be requested at construction while its reference count is 0, and
let the kernel refuse the open.  Then the handle of `k` is absent after construction, `play`
and `pause` yield an object and a registry (they raise nothing) with the registry unchanged,
and `get_counter(k)` then fails with the "non tracked event" error, as it does for every kind
that is not in `req_events`. -/
theorem C6_get_counter_fails_when_open_refused (sys_open : Event → Int)
    (read_play read_pause : Nat → Int → Option Nat) (reg : Registry) (req_events : List Event)
    (k : Event) (hk : k ∈ req_events) (h0 : reg.tracked_events k = 0)
    (hfail : sys_open k = -1) :
    (ctor sys_open reg req_events).reg.fd k = -1 ∧
      (play_then_pause read_play read_pause (ctor sys_open reg req_events).reg
        (ctor sys_open reg req_events).out).reg = (ctor sys_open reg req_events).reg ∧
      get_counter
        (play_then_pause read_play read_pause (ctor sys_open reg req_events).reg
          (ctor sys_open reg req_events).out).reg
        (play_then_pause read_play read_pause (ctor sys_open reg req_events).reg
          (ctor sys_open reg req_events).out).out k = Except.error non_tracked_error ∧
      ∀ (self : Instance) (r : Registry) (j : Event), j ∉ self.req_events →
        get_counter r self j = Except.error non_tracked_error := by
  have hfd : (ctor sys_open reg req_events).reg.fd k = -1 :=
    perf_start_refused sys_open k hfail req_events reg hk h0
  refine ⟨hfd, rfl, ?_, ?_⟩
  · show get_counter (ctor sys_open reg req_events).reg _ k = _
    unfold get_counter
    rw [get_counter_from_spec, if_neg (fun hc => hc.2 hfd)]
  · intro self r j hj
    unfold get_counter
    rw [get_counter_from_spec, if_neg (fun hc => hj hc.1)]

/-- Witness of the amended C6 in the fresh process, `CPU_CYCLES` refused. -/
theorem C6_get_counter_fails_when_open_refused_witness :
    get_counter refused_scenario.reg refused_scenario.out Event.CPU_CYCLES =
      Except.error non_tracked_error :=
  (C6_get_counter_fails_when_open_refused (fun _ => -1) (fun _ _ => some 1) (fun _ _ => some 2)
    Registry.initial [Event.CPU_CYCLES] Event.CPU_CYCLES (by decide) rfl rfl).2.2.1

/-- Claim C7. `restart` sets every accumulated total to 0 and changes nothing else: `req_events`,
`start_count` and the registry are as before, and no call is made.  Hence `get_counter(k)`
returns 0 right after `restart` for every requested kind `k` whose handle is present; when
the vectors of the object have equal length, the position of `k` in `total_count` exists and
holds 0.  The constructor leaves `req_events` as given and `start_count` and `total_count` as
vectors of that length filled with 0, so right after construction the position of every
requested kind `k` in `total_count` exists and holds 0, and `get_counter(k)` returns that 0
when the handle of `k` is present. -/
theorem C7_restart (reg : Registry) (self : Instance) :
    (restart reg self).out.total_count = List.replicate self.total_count.length 0 ∧
      (restart reg self).out.req_events = self.req_events ∧
      (restart reg self).out.start_count = self.start_count ∧
      (restart reg self).reg = reg ∧
      (restart reg self).calls = [] ∧
      (∀ k, k ∈ self.req_events → reg.fd k ≠ -1 →
        get_counter (restart reg self).reg (restart reg self).out k = Except.ok 0) ∧
      (∀ k, k ∈ self.req_events → self.total_count.length = self.req_events.length →
        (restart reg self).out.total_count[(restart reg self).out.req_events.indexOf k]? =
          some 0) ∧
      (∀ (sys_open : Event → Int) (req_events : List Event),
        (ctor sys_open reg req_events).out.req_events = req_events ∧
          (ctor sys_open reg req_events).out.start_count =
            List.replicate req_events.length 0 ∧
          (ctor sys_open reg req_events).out.total_count =
            List.replicate req_events.length 0 ∧
          ∀ k, k ∈ req_events →
            (ctor sys_open reg req_events).out.total_count[
                (ctor sys_open reg req_events).out.req_events.indexOf k]? = some 0 ∧
              ((ctor sys_open reg req_events).reg.fd k ≠ -1 →
                get_counter (ctor sys_open reg req_events).reg
                  (ctor sys_open reg req_events).out k = Except.ok 0)) := by
  have hzero : ∀ (l : List Nat) (i : Nat), (l.map (fun _ => 0)).getD i 0 = 0 := by
    intro l i
    rw [List.getD_eq_getElem?_getD, List.getElem?_map]
    cases l[i]? <;> rfl
  have hrep : ∀ l : List Nat, l.map (fun _ => 0) = List.replicate l.length 0 := by
    intro l
    exact List.eq_replicate_iff.mpr ⟨by simp, by simp⟩
  have hctor : ∀ (sys_open : Event → Int) (req_events : List Event),
      (ctor sys_open reg req_events).out.total_count = List.replicate req_events.length 0 := by
    intro sys_open req_events
    show (List.replicate req_events.length 0).map (fun _ => 0) = _
    rw [hrep, List.length_replicate]
  refine ⟨hrep self.total_count, rfl, rfl, rfl, rfl, ?_, ?_, ?_⟩
  · intro k hk hfd
    unfold get_counter
    rw [get_counter_from_spec]
    show (if k ∈ self.req_events ∧ reg.fd k ≠ -1 then _ else _) = _
    rw [if_pos ⟨hk, hfd⟩]
    show Except.ok ((self.total_count.map (fun _ => 0)).getD _ 0) = _
    rw [hzero]
  · intro k hk hlen
    show (self.total_count.map (fun _ => 0))[self.req_events.indexOf k]? = some 0
    have hlt : self.req_events.indexOf k < self.total_count.length := by
      rw [hlen]; exact List.indexOf_lt_length.mpr hk
    rw [hrep, List.getElem?_replicate, if_pos hlt]
  · intro sys_open req_events
    refine ⟨rfl, rfl, hctor sys_open req_events, ?_⟩
    intro k hk
    have hpos : (ctor sys_open reg req_events).out.total_count[
        (ctor sys_open reg req_events).out.req_events.indexOf k]? = some 0 := by
      rw [hctor]
      show (List.replicate req_events.length 0)[req_events.indexOf k]? = some 0
      rw [List.getElem?_replicate, if_pos (List.indexOf_lt_length.mpr hk)]
    refine ⟨hpos, ?_⟩
    intro hfd
    unfold get_counter
    rw [get_counter_from_spec]
    show (if k ∈ req_events ∧ (ctor sys_open reg req_events).reg.fd k ≠ -1 then _ else _) = _
    rw [if_pos ⟨hk, hfd⟩, Nat.zero_add, List.getD_eq_getElem?_getD, hpos]
    rfl

/-- Witness of C7: after `restart` of `example_instance` and after the construction of
`shared_a`, the positions of the requested kinds hold 0 and `get_counter(CPU_CYCLES)`
returns 0. -/
theorem C7_restart_witness :
    get_counter (restart example_registry example_instance).reg
        (restart example_registry example_instance).out Event.CPU_CYCLES = Except.ok 0 ∧
      (restart example_registry example_instance).out.total_count[
        (restart example_registry example_instance).out.req_events.indexOf
          Event.CACHE_MISSES]? = some 0 ∧
      shared_a.out.total_count[shared_a.out.req_events.indexOf Event.INSTRUCTIONS]? = some 0 ∧
      get_counter shared_a.reg shared_a.out Event.CPU_CYCLES = Except.ok 0 :=
  ⟨(C7_restart example_registry example_instance).2.2.2.2.2.1 Event.CPU_CYCLES (by decide)
      (by decide),
    (C7_restart example_registry example_instance).2.2.2.2.2.2.1 Event.CACHE_MISSES
      (by decide) (by decide),
    (((C7_restart Registry.initial example_instance).2.2.2.2.2.2.2 (fun _ => 7)
      [Event.CPU_CYCLES, Event.INSTRUCTIONS]).2.2.2 Event.INSTRUCTIONS (by decide)).1,
    (((C7_restart Registry.initial example_instance).2.2.2.2.2.2.2 (fun _ => 7)
      [Event.CPU_CYCLES, Event.INSTRUCTIONS]).2.2.2 Event.CPU_CYCLES (by decide)).2
      (by decide)⟩

/-- Claim C8. Let the reference count of `k` be 0 and let the kernel grant the open of `k`.
Constructing two objects from duplicate-free lists that both contain `k` makes exactly one
`perf_event_open` call for `k` and leaves `tracked_events[k] = 2` with the granted handle in
`fd[k]`.  Destroying either of the two leaves `tracked_events[k] = 1` and the same handle, with
no `close` for `k`; destroying the other one then makes one `close` for `k` and leaves
`tracked_events[k] = 0` and `fd[k] = -1`. -/
theorem C8_two_instances_share_one_handle (open_a open_b : Event → Int) (reg : Registry)
    (list_a list_b : List Event) (k : Event) (h0 : reg.tracked_events k = 0)
    (hopen : open_a k ≠ -1) (hka : k ∈ list_a) (hkb : k ∈ list_b) (hnda : list_a.Nodup)
    (hndb : list_b.Nodup) :
    opens_of k ((ctor open_a reg list_a).calls ++
        (ctor open_b (ctor open_a reg list_a).reg list_b).calls) = 1 ∧
      (ctor open_b (ctor open_a reg list_a).reg list_b).reg.tracked_events k = 2 ∧
      (ctor open_b (ctor open_a reg list_a).reg list_b).reg.fd k = open_a k ∧
      ∀ first second : Instance,
        (first = (ctor open_a reg list_a).out ∧
            second = (ctor open_b (ctor open_a reg list_a).reg list_b).out) ∨
          (first = (ctor open_b (ctor open_a reg list_a).reg list_b).out ∧
            second = (ctor open_a reg list_a).out) →
        (dtor (ctor open_b (ctor open_a reg list_a).reg list_b).reg first).reg.tracked_events k
            = 1 ∧
          (dtor (ctor open_b (ctor open_a reg list_a).reg list_b).reg first).reg.fd k
            = open_a k ∧
          closes_of k (dtor (ctor open_b (ctor open_a reg list_a).reg list_b).reg first).calls
            = 0 ∧
          (dtor (dtor (ctor open_b (ctor open_a reg list_a).reg list_b).reg first).reg
            second).reg.tracked_events k = 0 ∧
          (dtor (dtor (ctor open_b (ctor open_a reg list_a).reg list_b).reg first).reg
            second).reg.fd k = -1 ∧
          closes_of k (dtor (dtor (ctor open_b (ctor open_a reg list_a).reg list_b).reg
            first).reg second).calls = 1 := by
  have hA := perf_start_nodup open_a k list_a reg hnda
  have hAt : (perf_start open_a reg list_a).1.tracked_events k = 1 := by
    rw [hA.1, if_pos hka, h0]; norm_num
  have hAf : (perf_start open_a reg list_a).1.fd k = open_a k := by
    rw [hA.2, if_pos ⟨hka, h0⟩]
  have hAo : opens_of k (perf_start open_a reg list_a).2 = 1 := by
    rw [opens_of_perf_start open_a k list_a reg hnda, if_pos ⟨hka, h0⟩]
  have hB := perf_start_nodup open_b k list_b (perf_start open_a reg list_a).1 hndb
  have hBn : ¬ (k ∈ list_b ∧ (perf_start open_a reg list_a).1.tracked_events k = 0) := by
    rw [hAt]; exact fun h => absurd h.2 (by norm_num)
  have hBt : (perf_start open_b (perf_start open_a reg list_a).1 list_b).1.tracked_events k
      = 2 := by
    rw [hB.1, if_pos hkb, hAt]; norm_num
  have hBf : (perf_start open_b (perf_start open_a reg list_a).1 list_b).1.fd k = open_a k := by
    rw [hB.2, if_neg hBn, hAf]
  have hBo : opens_of k (perf_start open_b (perf_start open_a reg list_a).1 list_b).2 = 0 := by
    rw [opens_of_perf_start open_b k list_b _ hndb, if_neg hBn]
  have key : ∀ l1 l2 : List Event, k ∈ l1 → l1.Nodup → k ∈ l2 → l2.Nodup →
      (for_each dtor_body (perf_start open_b (perf_start open_a reg list_a).1 list_b).1
        l1).1.tracked_events k = 1 ∧
      (for_each dtor_body (perf_start open_b (perf_start open_a reg list_a).1 list_b).1
        l1).1.fd k = open_a k ∧
      closes_of k (for_each dtor_body
        (perf_start open_b (perf_start open_a reg list_a).1 list_b).1 l1).2 = 0 ∧
      (for_each dtor_body (for_each dtor_body
        (perf_start open_b (perf_start open_a reg list_a).1 list_b).1 l1).1
        l2).1.tracked_events k = 0 ∧
      (for_each dtor_body (for_each dtor_body
        (perf_start open_b (perf_start open_a reg list_a).1 list_b).1 l1).1 l2).1.fd k = -1 ∧
      closes_of k (for_each dtor_body (for_each dtor_body
        (perf_start open_b (perf_start open_a reg list_a).1 list_b).1 l1).1 l2).2 = 1 := by
    intro l1 l2 hk1 hn1 hk2 hn2
    generalize hregB : (perf_start open_b (perf_start open_a reg list_a).1 list_b).1 = regB
      at hBt hBf
    have hD := dtor_nodup k l1 regB hn1
    have hne : ¬ (k ∈ l1 ∧ regB.fd k ≠ -1 ∧
        (regB.tracked_events k + (2 ^ 32 - 1)) % 2 ^ 32 = 0) := by
      rw [hBt]; exact fun h => absurd h.2.2 (by norm_num)
    have hDt : (for_each dtor_body regB l1).1.tracked_events k = 1 := by
      rw [hD.1, if_pos hk1, hBt]; norm_num
    have hDf : (for_each dtor_body regB l1).1.fd k = open_a k := by
      rw [hD.2, if_neg hne, hBf]
    have hDc : closes_of k (for_each dtor_body regB l1).2 = 0 := by
      rw [closes_of_dtor k l1 regB hn1, if_neg hne]
    generalize hregD : (for_each dtor_body regB l1).1 = regD at hDt hDf
    have hE := dtor_nodup k l2 regD hn2
    have hyes : k ∈ l2 ∧ regD.fd k ≠ -1 ∧
        (regD.tracked_events k + (2 ^ 32 - 1)) % 2 ^ 32 = 0 := by
      rw [hDt, hDf]; exact ⟨hk2, hopen, by norm_num⟩
    refine ⟨hDt, hDf, hDc, ?_, ?_, ?_⟩
    · rw [hE.1, if_pos hk2, hDt]; norm_num
    · rw [hE.2, if_pos hyes]
    · rw [closes_of_dtor k l2 regD hn2, if_pos hyes]
  refine ⟨?_, hBt, hBf, ?_⟩
  · have happ : ∀ a b : List Call, opens_of k (a ++ b) = opens_of k a + opens_of k b := by
      intro a b; simp [opens_of]
    simp only [ctor, restart, List.append_nil]
    rw [happ, hAo, hBo]
  · intro first second h
    rcases h with ⟨h1, h2⟩ | ⟨h1, h2⟩
    · subst h1; subst h2
      exact key list_a list_b hka hnda hkb hndb
    · subst h1; subst h2
      exact key list_b list_a hkb hndb hka hnda

/-- Witness of C8 on `shared_a` and `shared_b`, which both request `CPU_CYCLES`: one open, count
2, handle 7; after the destruction of `shared_b` and then of `shared_a` the handle is gone. -/
theorem C8_two_instances_share_one_handle_witness :
    opens_of Event.CPU_CYCLES (shared_a.calls ++ shared_b.calls) = 1 ∧
      shared_b.reg.tracked_events Event.CPU_CYCLES = 2 ∧
      shared_b.reg.fd Event.CPU_CYCLES = 7 ∧
      (dtor shared_b.reg shared_b.out).reg.fd Event.CPU_CYCLES = 7 ∧
      (dtor (dtor shared_b.reg shared_b.out).reg shared_a.out).reg.fd Event.CPU_CYCLES = -1 :=
  ⟨(C8_two_instances_share_one_handle (fun _ => 7) (fun _ => 9) Registry.initial
      [Event.CPU_CYCLES, Event.INSTRUCTIONS] [Event.CACHE_MISSES, Event.CPU_CYCLES]
      Event.CPU_CYCLES rfl (by decide) (by decide) (by decide) (by decide) (by decide)).1,
    (C8_two_instances_share_one_handle (fun _ => 7) (fun _ => 9) Registry.initial
      [Event.CPU_CYCLES, Event.INSTRUCTIONS] [Event.CACHE_MISSES, Event.CPU_CYCLES]
      Event.CPU_CYCLES rfl (by decide) (by decide) (by decide) (by decide) (by decide)).2.1,
    (C8_two_instances_share_one_handle (fun _ => 7) (fun _ => 9) Registry.initial
      [Event.CPU_CYCLES, Event.INSTRUCTIONS] [Event.CACHE_MISSES, Event.CPU_CYCLES]
      Event.CPU_CYCLES rfl (by decide) (by decide) (by decide) (by decide) (by decide)).2.2.1,
    ((C8_two_instances_share_one_handle (fun _ => 7) (fun _ => 9) Registry.initial
      [Event.CPU_CYCLES, Event.INSTRUCTIONS] [Event.CACHE_MISSES, Event.CPU_CYCLES]
      Event.CPU_CYCLES rfl (by decide) (by decide) (by decide) (by decide) (by decide)).2.2.2
      shared_b.out shared_a.out (Or.inr ⟨rfl, rfl⟩)).2.1,
    ((C8_two_instances_share_one_handle (fun _ => 7) (fun _ => 9) Registry.initial
      [Event.CPU_CYCLES, Event.INSTRUCTIONS] [Event.CACHE_MISSES, Event.CPU_CYCLES]
      Event.CPU_CYCLES rfl (by decide) (by decide) (by decide) (by decide) (by decide)).2.2.2
      shared_b.out shared_a.out (Or.inr ⟨rfl, rfl⟩)).2.2.2.2.1⟩

/-- Claim C9, the code at the failing input. In `three_kinds_scenario` the handles 5, 6, 8 of
`CPU_CYCLES`, `INSTRUCTIONS`, `CACHE_MISSES` are present.  The disable and enable loops of
`play` and of `pause` subscript `fd` with the reference counts `1, 1, 0, 1, 0, ...`, so their
requests go to the descriptors 6 and 5 only: the handle 8 of `CACHE_MISSES` receives neither a
disable nor an enable request. -/
theorem C9_toggle_misses_a_present_handle :
    three_kinds_scenario.reg.fd Event.CACHE_MISSES = 8 ∧
      (8 : Int) ∉ ioctl_targets IoctlRequest.DISABLE
        (play (fun _ _ => some 1) three_kinds_scenario.reg three_kinds_scenario.out).calls ∧
      (8 : Int) ∉ ioctl_targets IoctlRequest.ENABLE
        (play (fun _ _ => some 1) three_kinds_scenario.reg three_kinds_scenario.out).calls ∧
      (8 : Int) ∉ ioctl_targets IoctlRequest.DISABLE
        (pause (fun _ _ => some 1) three_kinds_scenario.reg three_kinds_scenario.out).calls ∧
      (8 : Int) ∉ ioctl_targets IoctlRequest.ENABLE
        (pause (fun _ _ => some 1) three_kinds_scenario.reg three_kinds_scenario.out).calls ∧
      (ioctl_targets IoctlRequest.DISABLE
        (play (fun _ _ => some 1) three_kinds_scenario.reg
          three_kinds_scenario.out).calls).dedup = [6, 5] := by
  decide

/-- Claim C10 as stated, refuted. After `retry_ops` the open of `CACHE_MISSES` has failed once
(`fd[CACHE_MISSES] = -1` after the first operation), yet at the end of the sequence the kind is
available again: `fd[CACHE_MISSES] = 5`. -/
theorem C10_counterexample :
    (World.initial.run (retry_ops.take 1)).reg.fd Event.CACHE_MISSES = -1 ∧
      (World.initial.run retry_ops).reg.fd Event.CACHE_MISSES = 5 ∧
      (World.initial.run retry_ops).reg.fd Event.CACHE_MISSES ≠ -1 := by
  decide

/-- Claim C10, amended. For every kind `k`:
* in a process run from its start, once `fd[k] = -1` the kind stays unavailable through every
  further sequence of operations before each of which `tracked_events[k]` is not 0;
* an acquisition of `k` whose open is refused leaves `fd[k] = -1` and sets the count to 1, and
  an acquisition of `k` while the count is not 0 increments the count and leaves `fd[k]` alone;
* while `fd[k] = -1`, `play` and `pause` make no `read` for `k` and leave the baseline and the
  total at every position holding `k` as they were. -/
theorem C10_unavailable_while_referenced (k : Event) :
    (∀ ops1 ops2 : List Op, (∀ op ∈ ops1, op.duplicate_free) →
        (∀ op ∈ ops2, op.duplicate_free) → (World.initial.run ops1).reg.fd k = -1 →
        (∀ n, n < ops2.length →
          ((World.initial.run ops1).run (ops2.take n)).reg.tracked_events k ≠ 0) →
        ((World.initial.run ops1).run ops2).reg.fd k = -1) ∧
      (∀ (sys_open : Event → Int) (reg : Registry) (l : List Event), l.Nodup → k ∈ l →
        sys_open k = -1 → reg.tracked_events k = 0 →
        (perf_start sys_open reg l).1.fd k = -1 ∧
          (perf_start sys_open reg l).1.tracked_events k = 1) ∧
      (∀ (sys_open : Event → Int) (reg : Registry) (l : List Event), l.Nodup → k ∈ l →
        reg.tracked_events k ≠ 0 →
        (perf_start sys_open reg l).1.fd k = reg.fd k ∧
          (perf_start sys_open reg l).1.tracked_events k
            = (reg.tracked_events k + 1) % 2 ^ 32) ∧
      (∀ (sys_read : Nat → Int → Option Nat) (reg : Registry) (self : Instance),
        reg.fd k = -1 →
        reads_of k (play sys_read reg self).calls = 0 ∧
          reads_of k (pause sys_read reg self).calls = 0 ∧
          ∀ i : Nat, self.req_events[i]? = some k →
            (play sys_read reg self).out.start_count[i]? = self.start_count[i]? ∧
              (pause sys_read reg self).out.total_count[i]? = self.total_count[i]?) := by
  refine ⟨?_, ?_, ?_, ?_⟩
  · intro ops1 ops2 h1 h2 hfd hpos
    exact World.run_keeps_absent k ops2 (World.initial.run ops1)
      (World.run_balanced ops1 World.initial World.initial_balanced h1) h2 hfd hpos
  · intro sys_open reg l hl hk hfail h0
    have h := perf_start_nodup sys_open k l reg hl
    refine ⟨?_, ?_⟩
    · rw [h.2, if_pos ⟨hk, h0⟩, hfail]
    · rw [h.1, if_pos hk, h0]; norm_num
  · intro sys_open reg l hl hk hpos
    have h := perf_start_nodup sys_open k l reg hl
    refine ⟨?_, ?_⟩
    · rw [h.2, if_neg (fun hc => hpos hc.2)]
    · rw [h.1, if_pos hk]
  · intro sys_read reg self hfd
    refine ⟨?_, ?_, ?_⟩
    · simp only [play, reads_of_append, reads_of_toggle_all, reads_of_play_reads k reg hfd]
    · simp only [pause, reads_of_append, reads_of_toggle_all, reads_of_pause_reads k reg hfd]
    · intro i hi
      refine ⟨?_, ?_⟩
      · have hat := play_reads_at reg sys_read self.req_events 0 self.start_count i k hi
        simp only [Nat.zero_add] at hat
        show (play_reads reg sys_read 0 self.req_events self.start_count).1[i]? = _
        rw [hat, if_pos hfd]
      · have hat := pause_reads_at reg sys_read self.start_count self.req_events 0
          self.total_count i k hi
        simp only [Nat.zero_add] at hat
        show (pause_reads reg sys_read self.start_count 0 self.req_events
          self.total_count).1[i]? = _
        rw [hat, if_pos hfd]

/-- Witness of the amended C10: after the refused open of `refused_ops`, the copy, the
assignment and the destruction of `later_ops` leave `CACHE_MISSES` unavailable. -/
theorem C10_unavailable_while_referenced_witness :
    ((World.initial.run refused_ops).run later_ops).reg.fd Event.CACHE_MISSES = -1 :=
  (C10_unavailable_while_referenced Event.CACHE_MISSES).1 refused_ops later_ops
    (by simp [refused_ops, Op.duplicate_free]) (by simp [later_ops, Op.duplicate_free])
    (by decide) (by decide)

/-- Claim C11. Let `s` be a live object of a process run from its start, and let the number of
holders of each kind of `s` be below `2 ^ 32` (reference counts are `unsigned int`).  The copy
constructor yields an object with the `req_events`, `start_count` and `total_count` of `s`, on
which `get_counter` answers as on `s` for every kind; `s` stays in place unchanged; each
`tracked_events[k]` with `k` in the list goes up by one (modulo `2 ^ 32`; exactly one when the
holders leave room) and no other count changes; no call to the kernel is made, so no open is
attempted, and `fd` is as before. -/
theorem C11_copy_construction (ops : List Op) (hops : ∀ op ∈ ops, op.duplicate_free)
    (src : Nat) (s : Instance) (sys_open : Event → Int)
    (hs : (World.initial.run ops).live[src]? = some s)
    (hrange : ∀ k ∈ s.req_events, (World.initial.run ops).holders k < 2 ^ 32) :
    (copy_ctor sys_open (World.initial.run ops).reg s).out.req_events = s.req_events ∧
      (copy_ctor sys_open (World.initial.run ops).reg s).out.start_count = s.start_count ∧
      (copy_ctor sys_open (World.initial.run ops).reg s).out.total_count = s.total_count ∧
      (∀ k, get_counter (copy_ctor sys_open (World.initial.run ops).reg s).reg
          (copy_ctor sys_open (World.initial.run ops).reg s).out k =
        get_counter (World.initial.run ops).reg s k) ∧
      ((World.initial.run ops).step (Op.copy_construct src sys_open)).live =
        (World.initial.run ops).live ++ [s] ∧
      (∀ k, (copy_ctor sys_open (World.initial.run ops).reg s).reg.tracked_events k =
        if k ∈ s.req_events then ((World.initial.run ops).reg.tracked_events k + 1) % 2 ^ 32
        else (World.initial.run ops).reg.tracked_events k) ∧
      (∀ k ∈ s.req_events, (World.initial.run ops).holders k + 1 < 2 ^ 32 →
        (copy_ctor sys_open (World.initial.run ops).reg s).reg.tracked_events k =
          (World.initial.run ops).reg.tracked_events k + 1) ∧
      (copy_ctor sys_open (World.initial.run ops).reg s).calls = [] ∧
      (copy_ctor sys_open (World.initial.run ops).reg s).reg.fd =
        (World.initial.run ops).reg.fd := by
  have hbal := World.run_balanced ops World.initial World.initial_balanced hops
  generalize World.initial.run ops = w at hs hrange hbal ⊢
  have hnd : s.req_events.Nodup := hbal.1 s (mem_of_getElem? hs)
  have hpos : ∀ k ∈ s.req_events, w.reg.tracked_events k ≠ 0 := by
    intro k hk
    have h1 := World.holders_pos w src s k hs hk
    have h2 := hrange k hk
    rw [hbal.2 k, Nat.mod_eq_of_lt h2]
    omega
  have hquiet := perf_start_quiet sys_open s.req_events w.reg hnd hpos
  have htr := fun k => (perf_start_nodup sys_open k s.req_events w.reg hnd).1
  refine ⟨rfl, rfl, rfl, ?_, ?_, htr, ?_, hquiet.1, hquiet.2⟩
  · intro k
    exact get_counter_congr_fd w.reg _ s k hquiet.2
  · simp only [World.step, hs]
    rfl
  · intro k hk hroom
    have h := htr k
    simp only [copy_ctor] at h ⊢
    rw [h, if_pos hk, hbal.2 k]
    omega

/-- Witness of C11 on `sample_ops`, copying the object at position 1: the copy equals the
original and the count of `CACHE_MISSES` goes from 1 to 2 without any call. -/
theorem C11_copy_construction_witness :
    (copy_ctor (fun _ => 9) (World.initial.run sample_ops).reg
        { req_events := [Event.CPU_CYCLES, Event.CACHE_MISSES], start_count := [0, 0],
          total_count := [0, 0] }).reg.tracked_events Event.CACHE_MISSES =
        (World.initial.run sample_ops).reg.tracked_events Event.CACHE_MISSES + 1 ∧
      (copy_ctor (fun _ => 9) (World.initial.run sample_ops).reg
        { req_events := [Event.CPU_CYCLES, Event.CACHE_MISSES], start_count := [0, 0],
          total_count := [0, 0] }).calls = [] :=
  ⟨(C11_copy_construction sample_ops
      (by simp [sample_ops, Op.duplicate_free, Event.CPU_CYCLES, Event.CACHE_MISSES]) 1
      { req_events := [Event.CPU_CYCLES, Event.CACHE_MISSES], start_count := [0, 0],
        total_count := [0, 0] } (fun _ => 9) (by decide) (by decide)).2.2.2.2.2.2.1
      Event.CACHE_MISSES (by decide) (by decide),
    (C11_copy_construction sample_ops
      (by simp [sample_ops, Op.duplicate_free, Event.CPU_CYCLES, Event.CACHE_MISSES]) 1
      { req_events := [Event.CPU_CYCLES, Event.CACHE_MISSES], start_count := [0, 0],
        total_count := [0, 0] } (fun _ => 9) (by decide) (by decide)).2.2.2.2.2.2.2.1⟩

/-- Claim C12. The move constructor yields an object with the `req_events`, `start_count` and
`total_count` that `s` had, leaves `s` with an empty `req_events`, makes no call and returns
the registry as it was (no reference count and no handle changes).  Destroying the moved-from
`s` later, in whatever registry `later`, makes no call and leaves `later` as it is. -/
theorem C12_move_construction (reg later : Registry) (s : Instance) :
    (move_ctor reg s).out.1.req_events = s.req_events ∧
      (move_ctor reg s).out.1.start_count = s.start_count ∧
      (move_ctor reg s).out.1.total_count = s.total_count ∧
      (move_ctor reg s).out.2.req_events = [] ∧
      (move_ctor reg s).reg = reg ∧
      (move_ctor reg s).calls = [] ∧
      (dtor later (move_ctor reg s).out.2).reg = later ∧
      (dtor later (move_ctor reg s).out.2).calls = [] :=
  ⟨rfl, rfl, rfl, rfl, rfl, rfl, rfl, rfl⟩


/-- Witness of C13 on the three live objects left by `sample_ops`: the object at position 1
(kinds `CPU_CYCLES`, `CACHE_MISSES`) is assigned the object at position 0 (kind `CPU_CYCLES`),
and the object at position 0 is assigned to itself.  In both cases no handle of `CPU_CYCLES`
is closed and `fd[CPU_CYCLES]` stays as it was. -/
theorem C13_copy_assignment_witness :
    (closes_of Event.CPU_CYCLES
          (copy_assign (fun _ => 9) (World.initial.run sample_ops).reg
            { req_events := [Event.CPU_CYCLES, Event.CACHE_MISSES], start_count := [0, 0],
              total_count := [0, 0] }
            { req_events := [Event.CPU_CYCLES], start_count := [0],
              total_count := [0] }).calls = 0 ∧
        (copy_assign (fun _ => 9) (World.initial.run sample_ops).reg
            { req_events := [Event.CPU_CYCLES, Event.CACHE_MISSES], start_count := [0, 0],
              total_count := [0, 0] }
            { req_events := [Event.CPU_CYCLES], start_count := [0],
              total_count := [0] }).reg.fd Event.CPU_CYCLES =
          (World.initial.run sample_ops).reg.fd Event.CPU_CYCLES) ∧
      (closes_of Event.CPU_CYCLES
          (copy_assign (fun _ => 9) (World.initial.run sample_ops).reg
            { req_events := [Event.CPU_CYCLES], start_count := [0], total_count := [0] }
            { req_events := [Event.CPU_CYCLES], start_count := [0],
              total_count := [0] }).calls = 0 ∧
        (copy_assign (fun _ => 9) (World.initial.run sample_ops).reg
            { req_events := [Event.CPU_CYCLES], start_count := [0], total_count := [0] }
            { req_events := [Event.CPU_CYCLES], start_count := [0],
              total_count := [0] }).reg.fd Event.CPU_CYCLES =
          (World.initial.run sample_ops).reg.fd Event.CPU_CYCLES) :=
  ⟨(C13_copy_assignment sample_ops
      (by simp [sample_ops, Op.duplicate_free, Event.CPU_CYCLES, Event.CACHE_MISSES]) 1 0
      { req_events := [Event.CPU_CYCLES, Event.CACHE_MISSES], start_count := [0, 0],
        total_count := [0, 0] }
      { req_events := [Event.CPU_CYCLES], start_count := [0], total_count := [0] }
      (fun _ => 9) (by decide) (by decide)).2.2.2.2.2.2.2.2 Event.CPU_CYCLES (by decide)
      (by decide),
    (C13_copy_assignment sample_ops
      (by simp [sample_ops, Op.duplicate_free, Event.CPU_CYCLES, Event.CACHE_MISSES]) 0 0
      { req_events := [Event.CPU_CYCLES], start_count := [0], total_count := [0] }
      { req_events := [Event.CPU_CYCLES], start_count := [0], total_count := [0] }
      (fun _ => 9) (by decide) (by decide)).2.2.2.2.2.2.2.2 Event.CPU_CYCLES (by decide)
      (by decide)⟩

/-- Claim C14, the code at the failing input. In `two_totals_scenario` the object lists
`INSTRUCTIONS` then `CPU_CYCLES`, both handles are present, and `get_counter` returns 10 for
`INSTRUCTIONS` and 30 for `CPU_CYCLES`.  `print_all_counters` writes the two lines in list
order with the right descriptions, but the line of `INSTRUCTIONS` shows 30 and the line of
`CPU_CYCLES` shows 10: the total is taken at the index `event`, not at the position of the
kind.  In `three_kinds_scenario` (kinds 0, 1, 3; three totals) the line of `CACHE_MISSES` reads
`total_count[3]`, past the end of the vector. -/
theorem C14_print_shows_total_of_another_position :
    two_totals_scenario.out.req_events = [Event.INSTRUCTIONS, Event.CPU_CYCLES] ∧
      two_totals_scenario.reg.fd Event.INSTRUCTIONS ≠ -1 ∧
      two_totals_scenario.reg.fd Event.CPU_CYCLES ≠ -1 ∧
      get_counter two_totals_scenario.reg two_totals_scenario.out Event.INSTRUCTIONS =
        Except.ok 10 ∧
      get_counter two_totals_scenario.reg two_totals_scenario.out Event.CPU_CYCLES =
        Except.ok 30 ∧
      print_all_counters two_totals_scenario.reg two_totals_scenario.out =
        [{ descriptor := "instructions", count := some 30 },
          { descriptor := "cpu cycles", count := some 10 }] ∧
      print_all_counters three_kinds_scenario.reg three_kinds_scenario.out =
        [{ descriptor := "cpu cycles", count := some 0 },
          { descriptor := "instructions", count := some 0 },
          { descriptor := "cache misses", count := none }] := by
  refine ⟨by decide, by decide, by decide, rfl, rfl, by decide, by decide⟩

set_option maxRecDepth 20000

/-- Claim C15, the code at the failing input. After `crowded_ops` 63 objects hold `CPU_CYCLES`
and `tracked_events[CPU_CYCLES]` is 63.  The disable loop and the enable loop of `play` and of
`pause` subscript `fd` with that count: the index 63 is not smaller than `NUM_EVENTS`. -/
theorem C15_toggle_index_out_of_range :
    (World.initial.run crowded_ops).live[0]? = some crowded_instance ∧
      (World.initial.run crowded_ops).reg.tracked_events Event.CPU_CYCLES = 63 ∧
      ¬ (63 < NUM_EVENTS) ∧
      Call.fd_access_out_of_range 63 ∈
        toggle_all (World.initial.run crowded_ops).reg IoctlRequest.DISABLE ∧
      Call.fd_access_out_of_range 63 ∈
        toggle_all (World.initial.run crowded_ops).reg IoctlRequest.ENABLE ∧
      Call.fd_access_out_of_range 63 ∈
        (play (fun _ _ => some 1) (World.initial.run crowded_ops).reg crowded_instance).calls ∧
      Call.fd_access_out_of_range 63 ∈
        (pause (fun _ _ => some 1) (World.initial.run crowded_ops).reg
          crowded_instance).calls := by
  decide

end PerfStopwatch
